import Mathlib

/-!
Shallow embedding of the tabular data pipeline of this repository
(backend/app/services): the schema validator (services/data/validation.py),
the column transform engine (services/data/preprocessing.py), the
augmentation engine (services/data/augmentation.py), the pipeline
orchestrator (services/pipeline/integration.py), and the numeric
normalizer described in the specification.

Conventions of the embedding:
* A pandas cell value is a `Value`; a DataFrame is a `Table`, an ordered
  list of named columns.  Machine floats are modelled as exact rationals;
  `NaN`/`None`/`NaT` are all `Value.vnull` (what `isnull` reports).
* Fallible Python code is `Except String`; the string is the kind of the
  exception raised.
* Calls to the global numpy random generator are modelled by an oracle
  stream `rng : Nat → Rat` together with an explicit position counter that
  advances by one per scalar drawn, exactly in the order the source draws.
-/

set_option maxRecDepth 4096

namespace FineTune

/-- A scalar cell of a pandas column.  `vint`, `vfloat`, `vbool`, `vstr`
are int64 / float64 / bool / object-string cells; `vnull` is a missing
value (NaN / None / NaT); `vtime` is a datetime64 tick; `vscaled a v`
is the exact value `a / sqrt v` (with `v > 0`) produced by
sklearn's StandardScaler, kept symbolically because the square root of a
rational variance is in general irrational. -/
inductive Value where
  | vint : Int → Value
  | vfloat : Rat → Value
  | vbool : Bool → Value
  | vstr : String → Value
  | vnull : Value
  | vtime : Int → Value
  | vscaled : Rat → Rat → Value
deriving DecidableEq, Repr

abbrev Col := List Value

/-- A DataFrame: ordered named columns. -/
abbrev Table := List (String × Col)

namespace Value

def isNull : Value → Bool
  | .vnull => true
  | _ => false

/-- Numeric content of a cell used in arithmetic: Python treats bools as
0/1 in arithmetic contexts.  Only meaningful on int/float/bool cells. -/
def toQ : Value → Rat
  | .vint n => (n : Rat)
  | .vfloat q => q
  | .vbool b => if b then 1 else 0
  | _ => 0

def isNumCell : Value → Bool
  | .vint _ => true
  | .vfloat _ => true
  | .vbool _ => true
  | _ => false

end Value

open Value

/-- The pandas dtype of a column, as inferred from its cells. -/
inductive DType where
  | i64 | f64 | bl | obj | dt64
deriving DecidableEq, Repr

namespace DType

/-- String rendering of a dtype, as `str(series.dtype)` prints it. -/
def name : DType → String
  | .i64 => "int64"
  | .f64 => "float64"
  | .bl => "bool"
  | .obj => "object"
  | .dt64 => "datetime64[ns]"

end DType

def countP (p : Value → Bool) (c : Col) : Nat := (c.filter p).length

/-- pandas dtype inference: a pure int column is int64; ints/floats with
NaN promote to float64; any string (or a mix of kinds) makes the column
object; a pure bool column is bool (bool + NaN is object); datetimes
(possibly with NaT, here `vnull`) are datetime64. -/
def colDType (c : Col) : DType :=
  let nInt := countP (fun v => match v with | .vint _ => true | _ => false) c
  let nFloat := countP (fun v => match v with | .vfloat _ => true | .vscaled _ _ => true | _ => false) c
  let nBool := countP (fun v => match v with | .vbool _ => true | _ => false) c
  let nStr := countP (fun v => match v with | .vstr _ => true | _ => false) c
  let nTime := countP (fun v => match v with | .vtime _ => true | _ => false) c
  let nNull := countP Value.isNull c
  if c.isEmpty then .obj
  else if nStr > 0 then .obj
  else if nTime > 0 then (if nInt + nFloat + nBool = 0 then .dt64 else .obj)
  else if nBool > 0 then (if nInt + nFloat + nNull = 0 then .bl else .obj)
  else if nFloat > 0 ∨ nNull > 0 then .f64
  else .i64

/-- `pd.api.types.is_numeric_dtype` : int64, float64 and bool columns. -/
def isNumericDtype (c : Col) : Bool :=
  match colDType c with
  | .i64 => true | .f64 => true | .bl => true | _ => false

/-- `select_dtypes(include=['int64', 'float64'])` membership. -/
def isIntFloatDtype (c : Col) : Bool :=
  match colDType c with
  | .i64 => true | .f64 => true | _ => false

def isObjectDtype (c : Col) : Bool := colDType c = .obj

def isDatetimeDtype (c : Col) : Bool := colDType c = .dt64

/-- Non-null cells of a column (pandas statistics all use `skipna`). -/
def nonNull (c : Col) : Col := c.filter (fun v => ¬ v.isNull)

/-- Non-null cells as rationals. -/
def colVals (c : Col) : List Rat := (nonNull c).map Value.toQ

def ratSum : List Rat → Rat
  | [] => 0
  | q :: qs => q + ratSum qs

/-- `series.mean()` with skipna; `none` is the NaN produced on an
all-null column. -/
def colMean (c : Col) : Option Rat :=
  let xs := colVals c
  if xs.length = 0 then none else some (ratSum xs / (xs.length : Rat))

/-- `series.var(ddof=1)` (the variance under pandas' sample std);
`none` is the NaN produced when fewer than two values remain. -/
def colSampleVar (c : Col) : Option Rat :=
  let xs := colVals c
  if xs.length ≤ 1 then none
  else
    match colMean c with
    | none => none
    | some m => some (ratSum (xs.map (fun x => (x - m) ^ 2)) / ((xs.length - 1 : Nat) : Rat))

/-- Insertion sort (structural recursion, so that concrete validation
scenarios evaluate inside the kernel). -/
def insertLe {α : Type} (le : α → α → Bool) (x : α) : List α → List α
  | [] => [x]
  | y :: ys => if le x y then x :: y :: ys else y :: insertLe le x ys

def sortLe {α : Type} (le : α → α → Bool) : List α → List α
  | [] => []
  | x :: xs => insertLe le x (sortLe le xs)

/-- `series.median()` with skipna: middle of the sorted non-null values,
averaging the two middles on even counts; `none` on an all-null column. -/
def colMedian (c : Col) : Option Rat :=
  let xs := sortLe (fun a b => a ≤ b) (colVals c)
  let n := xs.length
  if n = 0 then none
  else if n % 2 = 1 then xs.get? (n / 2)
  else
    match xs.get? (n / 2 - 1), xs.get? (n / 2) with
    | some a, some b => some ((a + b) / 2)
    | _, _ => none

/-- Number of rows of a DataFrame (`len(df)`): the length of its first
column; uniform tables have every column of this length. -/
def nRows (t : Table) : Nat :=
  match t with
  | [] => 0
  | c :: _ => c.2.length

/-- The DataFrame invariant: every column has the common row count. -/
def uniformTable (t : Table) : Bool :=
  t.all (fun c => c.2.length = nRows t)

def lookupCol (t : Table) (name : String) : Option Col :=
  (t.find? (fun c => c.1 = name)).map (·.2)

def hasCol (t : Table) (name : String) : Bool := (lookupCol t name).isSome

/-- Column names, in order (`df.columns`). -/
def colNames (t : Table) : List String := t.map (·.1)

/-- The truncation `int(q)` of Python (toward zero). -/
def pyTrunc (q : Rat) : Int := if 0 ≤ q then q.floor else -((-q).floor)

end FineTune

namespace FineTune

/-! ## Schema validator — services/data/validation.py -/

/-- `DataValidationConfig` (validation.py lines 11–15).  It declares
exactly four fields: `required_columns`, `column_types`, `value_ranges`
and `unique_columns`.  Note that it declares no `max_missing_ratio`
field, although `DataValidator._check_missing_values` reads one.
Python dicts are association lists preserving insertion order. -/
structure DataValidationConfig where
  required_columns : List (String × Bool)
  column_types : List (String × String)
  value_ranges : List (String × List (String × Rat))
  unique_columns : List (String × Bool)
deriving DecidableEq, Repr

/-- The field names pydantic generates attributes for on
`DataValidationConfig` — directly from lines 12–15 of validation.py. -/
def dataValidationConfigFields : List String :=
  ["required_columns", "column_types", "value_ranges", "unique_columns"]

/-- Reading `self.config.max_missing_ratio` (validation.py line 123).
`max_missing_ratio` is not among the declared fields of
`DataValidationConfig`, so the attribute lookup raises. -/
def getMaxMissingRatio (_cfg : DataValidationConfig) : Except String Rat :=
  if h : "max_missing_ratio" ∈ dataValidationConfigFields then
    -- there is no such field; this branch is vacuous
    absurd h (by decide)
  else
    .error "AttributeError: DataValidationConfig object has no attribute max_missing_ratio"

namespace DataValidator

/-- `_check_required_columns`: one violation naming every required column
absent from the frame.  (The source renders a Python set; the embedding
keeps the configuration order of the missing names.) -/
def check_required_columns (cfg : DataValidationConfig) (df : Table) : List String :=
  let missing := (cfg.required_columns.map (·.1)).filter (fun nm => ¬ hasCol df nm)
  if missing.isEmpty then []
  else [String.intercalate ", " missing ++ " : missing required columns"]

/-- `_is_compatible_type` (validation.py lines 157–170). -/
def is_compatible_type (actualType : String) (expectedType : String) : Bool :=
  let mappings : List (String × List String) :=
    [("int", ["int64", "int32", "int16", "int8"]),
     ("float", ["float64", "float32", "float16"]),
     ("string", ["object", "string"]),
     ("boolean", ["bool"]),
     ("datetime", ["datetime64[ns]", "datetime64"])]
  let allowed := match mappings.find? (fun m => m.1 = expectedType.toLower) with
    | some m => m.2
    | none => [expectedType]
  allowed.contains actualType

/-- `_check_column_types`: one violation per declared column present with
an incompatible dtype. -/
def check_column_types (cfg : DataValidationConfig) (df : Table) : List String :=
  cfg.column_types.foldl (fun errs ct =>
    match lookupCol df ct.1 with
    | none => errs
    | some c =>
        if is_compatible_type (colDType c).name ct.2 then errs
        else errs ++ ["Column " ++ ct.1 ++ " has type " ++ (colDType c).name ++ ", expected " ++ ct.2]) []

/-- Python `a < b` on cells of a pandas column compared against a string
(the comparison `_check_value_ranges` actually performs, see below):
defined between two strings (lexicographic) and between numbers, and a
`TypeError` otherwise. -/
def pyLt (a b : Value) : Except String Bool :=
  match a, b with
  | .vstr s, .vstr t => .ok (decide (s < t))
  | .vint _, .vstr _ => .error "TypeError: < not supported between int and str"
  | .vfloat _, .vstr _ => .error "TypeError: < not supported between float and str"
  | .vbool _, .vstr _ => .error "TypeError: < not supported between bool and str"
  | .vnull, .vstr _ => .error "TypeError: < not supported between float and str"
  | .vtime _, .vstr _ => .error "TypeError: < not supported between datetime and str"
  | .vscaled _ _, .vstr _ => .error "TypeError: < not supported between float and str"
  | .vstr _, _ => .error "TypeError: < not supported between str and non-str"
  | .vnull, _ => .ok false
  | _, .vnull => .ok false
  | .vtime s, .vtime t => .ok (decide (s < t))
  | .vtime _, _ => .error "TypeError: < not supported between datetime and number"
  | _, .vtime _ => .error "TypeError: < not supported between number and datetime"
  | x, y => .ok (decide (x.toQ < y.toQ))

def countOutOfRange (c : Col) (lo hi : Value) : Except String Nat :=
  c.foldlM (fun acc v => do
    let below ← pyLt v lo
    let above ← pyLt hi v
    pure (if below || above then acc + 1 else acc)) 0

/-- `_check_value_ranges` (validation.py lines 82–99).  The source
unpacks each configured range with `for column, (min_val, max_val) in
self.config.value_ranges.items()`; the configured value is a dict such
as `{"min": 0.0, "max": 10.0}` (line 14), and unpacking a dict iterates
its keys, so `min_val` and `max_val` are bound to the two key *strings*
(a `ValueError` if the dict does not have exactly two keys).  The
elementwise comparisons `df[column] < min_val` are therefore comparisons
against strings. -/
def check_value_ranges (cfg : DataValidationConfig) (df : Table) : Except String (List String) :=
  cfg.value_ranges.foldlM (fun errs vr => do
    match vr.2 with
    | [k1, k2] =>
        match lookupCol df vr.1 with
        | none => pure errs
        | some c => do
            let n ← countOutOfRange c (.vstr k1.1) (.vstr k2.1)
            if n > 0 then
              pure (errs ++ ["Column " ++ vr.1 ++ " has " ++ toString n ++ " values outside range"])
            else pure errs
    | _ => .error "ValueError: dict unpacking expected exactly 2 keys") []

/-- `series.duplicated()`: marks every occurrence after the first
(pandas counts equal NaNs as duplicates of each other). -/
def duplicatedCount (c : Col) : Nat :=
  (c.foldl (fun st v =>
      if st.1.contains v then (st.1, st.2 + 1) else (st.1 ++ [v], st.2)) (([] : List Value), 0)).2

/-- `_check_unique_constraints`: iterating the configured dict iterates
its keys; one violation per present column with duplicates. -/
def check_unique_constraints (cfg : DataValidationConfig) (df : Table) : List String :=
  cfg.unique_columns.foldl (fun errs uc =>
    match lookupCol df uc.1 with
    | none => errs
    | some c =>
        let d := duplicatedCount c
        if d > 0 then errs ++ ["Column " ++ uc.1 ++ " has " ++ toString d ++ " duplicate values"]
        else errs) []

/-- Number of null cells of a column (`series.isnull().sum()`). -/
def nullCount (c : Col) : Nat := countP Value.isNull c

/-- The `for column in df.columns:` loop of `_check_missing_values`
(validation.py lines 121–127).  Each iteration first computes the
column's missing ratio (line 122; `isnull().mean()` of a zero-row
column is NaN, which compares false against any threshold) and then
reads `self.config.max_missing_ratio` (line 123) — an attribute
`DataValidationConfig` does not declare, so the first column processed
raises `AttributeError`.  A zero-column frame never enters the loop. -/
def check_missing_values_loop (cfg : DataValidationConfig) :
    Table → List String → Except String (List String)
  | [], errs => .ok errs
  | c :: rest, errs =>
      let ratio : Rat := (nullCount c.2 : Rat) / (c.2.length : Rat)
      match getMaxMissingRatio cfg with
      | .error e => .error e
      | .ok thr =>
          if c.2.length ≠ 0 ∧ ratio > thr then
            check_missing_values_loop cfg rest
              (errs ++ ["Column " ++ c.1 ++ " has too many missing values"])
          else
            check_missing_values_loop cfg rest errs

/-- `_check_missing_values` (validation.py lines 115–129). -/
def check_missing_values (cfg : DataValidationConfig) (df : Table) : Except String (List String) :=
  check_missing_values_loop cfg df []

/-- `series.nunique()`: distinct non-null values. -/
def nUnique (c : Col) : Nat := ((nonNull c).foldl (fun seen v => if seen.contains v then seen else seen ++ [v]) []).length

/-- `_check_data_quality` (validation.py lines 131–155): flags constant
columns, then high-cardinality object columns.  `len(df) = 0` would make
the cardinality ratio a division by zero; the source would raise there,
which the pipeline never reaches because `_check_missing_values` raises
first — modelled as an error for faithfulness. -/
def check_data_quality (df : Table) : Except String (List String) := do
  let constant := (df.filter (fun c => nUnique c.2 = 1)).map (·.1)
  let errs := if constant.isEmpty then [] else ["Constant columns detected: " ++ String.intercalate ", " constant]
  df.foldlM (fun errs c =>
    if isObjectDtype c.2 then
      if nRows df = 0 then .error "ZeroDivisionError: division by zero"
      else if ((nUnique c.2 : Rat) / (nRows df : Rat)) > (9 : Rat) / 10 then
        pure (errs ++ ["High cardinality detected in column " ++ c.1])
      else pure errs
    else pure errs) errs

/-- `DataValidator.validate_dataset` (validation.py lines 21–54): runs
the checks in source order, accumulating violation strings; any
exception inside the checks is logged and re-raised. -/
def validate_dataset (cfg : DataValidationConfig) (df : Table) : Except String (Bool × List String) :=
  let e1 := if cfg.required_columns.isEmpty then [] else check_required_columns cfg df
  let e2 := if cfg.column_types.isEmpty then [] else check_column_types cfg df
  match (if cfg.value_ranges.isEmpty then .ok [] else check_value_ranges cfg df) with
  | .error e => .error e
  | .ok e3 =>
    let e4 := if cfg.unique_columns.isEmpty then [] else check_unique_constraints cfg df
    match check_missing_values cfg df with
    | .error e => .error e
    | .ok e5 =>
      match check_data_quality df with
      | .error e => .error e
      | .ok e6 =>
        let errs := e1 ++ e2 ++ e3 ++ e4 ++ e5 ++ e6
        .ok (errs.isEmpty, errs)

end DataValidator

/-- Whether an `Except` computation raised. -/
def isErr {α : Type} : Except String α → Bool
  | .error _ => true
  | .ok _ => false

/-! ## Column transform engine — services/data/preprocessing.py

`DataPreprocessor.process_pipeline` receives the caller's DataFrame.
The missing-value step builds brand-new columns (`fillna` copies) and
re-assembles them with `pd.concat`, so it never touches the caller's
object; but the outlier, encoding and scaling steps assign
`df[col] = ...` on the frame they were handed, mutating it in place,
before returning a fresh `pd.concat` of the processed columns.  The
embedding therefore threads a triple (current frame, contents of the
caller's object, whether the current frame still *is* the caller's
object), and `process_pipeline` returns both the result and the final
contents of the caller's object. -/

/-- The resolved configuration of `DataPreprocessor`: the values
`_initialize_pipeline_steps` and the step bodies read from the config
dict, with the source's `.get` defaults. -/
structure PreprocessingConfig where
  handle_missing : Bool := true
  missing_values_strategy : String := "mean"
  handle_outliers : Bool := true
  outlier_threshold : Rat := 3
  outlier_method : String := "zscore"
  feature_engineering : Bool := false
  feature_interactions : List (String × String) := []
  encode_categorical : Bool := true
  scale_numerical : Bool := true
deriving Repr

namespace DataPreprocessor

/-- `series.fillna(v)`. -/
def fillCol (c : Col) (v : Value) : Col := c.map (fun x => if x.isNull then v else x)

/-- A fixed total order on cells (numbers by value, then strings
lexicographically, then datetimes, then nulls) used to model the
sorted order of `series.mode()`. -/
def valueLe (a b : Value) : Bool :=
  let rank : Value → Nat := fun v => match v with
    | .vint _ => 0 | .vfloat _ => 0 | .vbool _ => 0 | .vscaled _ _ => 0
    | .vstr _ => 1 | .vtime _ => 2 | .vnull => 3
  if rank a ≠ rank b then rank a ≤ rank b
  else match a, b with
    | .vstr s, .vstr t => s ≤ t
    | .vtime s, .vtime t => s ≤ t
    | x, y => x.toQ ≤ y.toQ

/-- `series.mode()[0]`: the most frequent non-null value, smallest first
on ties; `none` when no non-null value exists (then `[0]` raises). -/
def colMode (c : Col) : Option Value :=
  let nn := nonNull c
  let distinct := nn.foldl (fun seen v => if seen.contains v then seen else seen ++ [v]) []
  let best := distinct.foldl (fun acc v =>
    let cnt := countP (fun x => x = v) nn
    match acc with
    | none => some (v, cnt)
    | some (w, bc) =>
        if cnt > bc then some (v, cnt)
        else if cnt = bc ∧ valueLe v w then some (v, cnt)
        else acc) none
  best.map (·.1)

/-- The per-column closure of `_handle_missing_values` (preprocessing.py
lines 85–94).  A numeric column under a strategy other than
`mean`/`median` falls through all branches and is returned unchanged.
Filling an all-null numeric column fills with its NaN mean, leaving the
column as it was.  A non-numeric `mode()[0]` with an empty mode raises
(unreachable for real frames: non-numeric dtype implies a non-null
cell). -/
def process_column_missing (strategy : String) (c : Col) : Except String Col :=
  if c.any Value.isNull then
    if isNumericDtype c then
      if strategy = "mean" then
        match colMean c with
        | some m => .ok (fillCol c (.vfloat m))
        | none => .ok c
      else if strategy = "median" then
        match colMedian c with
        | some m => .ok (fillCol c (.vfloat m))
        | none => .ok c
      else .ok c
    else
      match colMode c with
      | some v => .ok (fillCol c v)
      | none => .error "KeyError: 0"
  else .ok c

/-- The column traversal of `_handle_missing_values` (the worker-pool
fan-out, joined in column order). -/
def missingCols (strategy : String) : Table → Except String Table
  | [] => .ok []
  | c :: rest =>
      match process_column_missing strategy c.2 with
      | .error e => .error e
      | .ok c2 =>
          match missingCols strategy rest with
          | .error e => .error e
          | .ok t => .ok ((c.1, c2) :: t)

/-- `_handle_missing_values`: processes every column and re-assembles
with `pd.concat(..., axis=1)`, which raises on an empty column list.
The input frame is never mutated. -/
def handle_missing_values (cfg : PreprocessingConfig) (df : Table) : Except String Table :=
  match missingCols cfg.missing_values_strategy df with
  | .error e => .error e
  | .ok cols =>
      if cols.isEmpty then .error "ValueError: No objects to concatenate"
      else .ok cols

/-- The z-score mask condition of `_handle_outliers`:
`|x - mean| / std > threshold` with `std = sqrt v` the sample standard
deviation.  Over the rationals this is expressed with squares: for
`v > 0` and `t ≥ 0`, `|x - m| / sqrt v > t` iff `(x - m)^2 > t^2 * v`;
for `v = 0` the z-score is NaN and the mask never fires; for `t < 0`
any non-NaN z-score (≥ 0) exceeds it. -/
def zscoreExceeds (x m v t : Rat) : Bool :=
  if v ≤ 0 then false
  else if t < 0 then true
  else (x - m) ^ 2 > t ^ 2 * v

/-- The per-column closure of `_handle_outliers` (preprocessing.py lines
109–114): on a numeric column under the zscore method, every value
whose z-score exceeds the threshold is replaced by the column median
(z-scores and median both computed from the unmodified column); NaN
cells have NaN z-scores and stay.  When the mean or std is NaN (empty
or single-value column) no mask fires. -/
def process_column_outliers (threshold : Rat) (method : String) (c : Col) : Col :=
  if isNumericDtype c ∧ method = "zscore" then
    match colMean c, colSampleVar c, colMedian c with
    | some m, some v, some med =>
        c.map (fun x => if x.isNull then x
          else if zscoreExceeds x.toQ m v threshold then .vfloat med else x)
    | _, _, _ => c
  else c

/-- `_handle_outliers` at table level: the returned pair is (the
re-assembled result of `pd.concat`, which raises on a frame with no
columns, and the contents of the frame object that was handed in, which
the step has mutated in place). -/
def handle_outliers_table (cfg : PreprocessingConfig) (df : Table) :
    Except String Table × Table :=
  let t := df.map (fun c => (c.1, process_column_outliers cfg.outlier_threshold cfg.outlier_method c.2))
  (if df.isEmpty then .error "ValueError: No objects to concatenate" else .ok t, t)

/-- Python elementwise `*` as pandas applies it inside
`_engineer_features` (`df[col1] * df[col2]`): numbers multiply (bools
count as 0/1, NaN propagates through numeric products), a string times
an integer/bool is sequence repetition, and the remaining combinations
raise `TypeError`.  `vscaled` cells cannot occur here: feature
engineering runs before scaling. -/
def pyMul (a b : Value) : Except String Value :=
  match a, b with
  | .vnull, .vstr _ => .error "TypeError: cannot multiply sequence by non-int"
  | .vstr _, .vnull => .error "TypeError: cannot multiply sequence by non-int"
  | .vnull, .vtime _ => .error "TypeError: unsupported operand for datetime"
  | .vtime _, .vnull => .error "TypeError: unsupported operand for datetime"
  | .vnull, _ => .ok .vnull
  | _, .vnull => .ok .vnull
  | .vint n, .vint m => .ok (.vint (n * m))
  | .vint n, .vfloat q => .ok (.vfloat (n * q))
  | .vfloat q, .vint n => .ok (.vfloat (q * n))
  | .vfloat q, .vfloat r => .ok (.vfloat (q * r))
  | .vbool b, .vint n => .ok (.vint ((if b then 1 else 0) * n))
  | .vint n, .vbool b => .ok (.vint (n * (if b then 1 else 0)))
  | .vbool b, .vbool c => .ok (.vint ((if b then 1 else 0) * (if c then 1 else 0)))
  | .vbool b, .vfloat q => .ok (.vfloat ((if b then 1 else 0) * q))
  | .vfloat q, .vbool b => .ok (.vfloat (q * (if b then 1 else 0)))
  | .vstr s, .vint n => .ok (.vstr (String.join (List.replicate n.toNat s)))
  | .vint n, .vstr s => .ok (.vstr (String.join (List.replicate n.toNat s)))
  | .vstr s, .vbool b => .ok (.vstr (if b then s else ""))
  | .vbool b, .vstr s => .ok (.vstr (if b then s else ""))
  | .vstr _, _ => .error "TypeError: cannot multiply sequence by non-int"
  | _, .vstr _ => .error "TypeError: cannot multiply sequence by non-int"
  | .vtime _, _ => .error "TypeError: unsupported operand for datetime"
  | _, .vtime _ => .error "TypeError: unsupported operand for datetime"
  | .vscaled _ _, _ => .error "TypeError: unreachable scaled operand"
  | _, .vscaled _ _ => .error "TypeError: unreachable scaled operand"

/-- Elementwise product of two columns. -/
def pyMulCol : Col → Col → Except String Col
  | [], _ => .ok []
  | _, [] => .ok []
  | a :: as_, b :: bs =>
      match pyMul a b with
      | .error e => .error e
      | .ok v =>
          match pyMulCol as_ bs with
          | .error e => .error e
          | .ok rest => .ok (v :: rest)

/-- `df[name] = col`: overwrite in place when the column exists,
append at the end otherwise. -/
def setCol (t : Table) (name : String) (c : Col) : Table :=
  if hasCol t name then t.map (fun x => if x.1 = name then (name, c) else x)
  else t ++ [(name, c)]

/-- `_engineer_features`: folds the configured interaction pairs over
the frame, mutating it in place (the same object is returned); pairs
referencing an absent column are skipped.  The second component of the
result is the contents of the frame object after the call — on a
`TypeError` the columns added before the failing pair remain. -/
def engineer_features_go : List (String × String) → Table → Except String Table × Table
  | [], t => (.ok t, t)
  | p :: ps, t =>
      match lookupCol t p.1, lookupCol t p.2 with
      | some c1, some c2 =>
          match pyMulCol c1 c2 with
          | .error e => (.error e, t)
          | .ok c => engineer_features_go ps (setCol t (p.1 ++ "_" ++ p.2 ++ "_interaction") c)
      | _, _ => engineer_features_go ps t

def engineer_features_table (cfg : PreprocessingConfig) (df : Table) :
    Except String Table × Table :=
  engineer_features_go cfg.feature_interactions df

/-- `str(value)` as `astype(str)` renders cells.  (The exact Python
float repr is not reproduced for non-integral rationals; only the
derived integer codes could differ in order, and nothing downstream
reads them.) -/
def pyStrRepr (v : Value) : String :=
  match v with
  | .vstr s => s
  | .vint n => toString n
  | .vbool b => if b then "True" else "False"
  | .vnull => "nan"
  | .vfloat q => if q.den = 1 then toString q.num ++ ".0" else toString q
  | .vtime n => toString n
  | .vscaled a v => toString a ++ " div sqrt " ++ toString v

/-- `LabelEncoder().fit_transform(series.astype(str))`: classes are the
sorted distinct strings; each cell becomes the integer index of its
class. -/
def encodeCol (c : Col) : Col :=
  let strs := c.map pyStrRepr
  let distinct := strs.foldl (fun seen s => if seen.contains s then seen else seen ++ [s]) []
  let classes := sortLe (fun a b => a ≤ b) distinct
  strs.map (fun s => .vint ((classes.indexOf s : Nat) : Int))

/-- `_encode_categorical` at table level: object-dtype columns are
replaced in place by their integer codes, then the frame is
re-assembled with `pd.concat` (raising on a frame with no columns). -/
def encode_categorical_table (df : Table) : Except String Table × Table :=
  let t := df.map (fun c => if isObjectDtype c.2 then (c.1, encodeCol c.2) else c)
  (if df.isEmpty then .error "ValueError: No objects to concatenate" else .ok t, t)

/-- `StandardScaler().fit_transform` on one int64/float64 column:
raises on NaN cells and on an empty column; otherwise centers by the
population mean and divides by the population standard deviation
(`sqrt v`, kept symbolically in `vscaled`; sklearn substitutes a scale
of 1 for a zero-variance column). -/
def scaleCol (c : Col) : Except String Col :=
  if c.any Value.isNull then .error "ValueError: Input contains NaN"
  else if c.length = 0 then .error "ValueError: Found array with 0 samples"
  else
    let xs := c.map Value.toQ
    let n : Rat := (c.length : Rat)
    let m := ratSum xs / n
    let v := ratSum (xs.map (fun x => (x - m) ^ 2)) / n
    .ok (xs.map (fun x => if v = 0 then Value.vfloat (x - m) else Value.vscaled (x - m) v))

/-- `_scale_numerical` column fold (the worker-pool fan-out is modelled
left to right): int64/float64 columns are scaled and written back in
place one by one; a raising column aborts the fold, leaving the columns
after it untouched.  Returns (outcome, contents of the mutated frame). -/
def scale_numerical_go : Table → Except String Table × Table
  | [] => (.ok [], [])
  | c :: rest =>
      if isIntFloatDtype c.2 then
        match scaleCol c.2 with
        | .error e => (.error e, c :: rest)
        | .ok sc =>
            ((scale_numerical_go rest).1.map (fun ts => (c.1, sc) :: ts),
             (c.1, sc) :: (scale_numerical_go rest).2)
      else
        ((scale_numerical_go rest).1.map (fun ts => c :: ts),
         c :: (scale_numerical_go rest).2)

def scale_numerical_table (df : Table) : Except String Table × Table :=
  (match (scale_numerical_go df).1 with
   | .error e => .error e
   | .ok t => if df.isEmpty then .error "ValueError: No objects to concatenate" else .ok t,
   (scale_numerical_go df).2)

/-- Pipeline tail from the scaling step on.  Arguments: configuration,
current frame, contents of the caller's object, and whether the current
frame still is the caller's object. -/
def pipeScale (cfg : PreprocessingConfig) (cur caller : Table) (al : Bool) :
    Except String Table × Table :=
  if cfg.scale_numerical then
    let p := scale_numerical_table cur
    (p.1, if al then p.2 else caller)
  else (.ok cur, caller)

/-- Pipeline tail from the categorical-encoding step on. -/
def pipeEncode (cfg : PreprocessingConfig) (cur caller : Table) (al : Bool) :
    Except String Table × Table :=
  if cfg.encode_categorical then
    let p := encode_categorical_table cur
    let caller2 := if al then p.2 else caller
    match p.1 with
    | .error e => (.error e, caller2)
    | .ok t => pipeScale cfg t caller2 false
  else pipeScale cfg cur caller al

/-- Pipeline tail from the feature-engineering step on.  The step
returns the very frame it mutated, so aliasing persists. -/
def pipeEngineer (cfg : PreprocessingConfig) (cur caller : Table) (al : Bool) :
    Except String Table × Table :=
  if cfg.feature_engineering then
    let p := engineer_features_table cfg cur
    let caller2 := if al then p.2 else caller
    match p.1 with
    | .error e => (.error e, caller2)
    | .ok t => pipeEncode cfg t caller2 al
  else pipeEncode cfg cur caller al

/-- Pipeline tail from the outlier step on. -/
def pipeOutliers (cfg : PreprocessingConfig) (cur caller : Table) (al : Bool) :
    Except String Table × Table :=
  if cfg.handle_outliers then
    let p := handle_outliers_table cfg cur
    let caller2 := if al then p.2 else caller
    match p.1 with
    | .error e => (.error e, caller2)
    | .ok t => pipeEngineer cfg t caller2 false
  else pipeEngineer cfg cur caller al

/-- `DataPreprocessor.process_pipeline` (preprocessing.py lines 18–65):
runs the enabled steps in source order on the caller's frame.  Returns
(the outcome: the processed table, or the exception the source re-raises,
and the final contents of the caller's DataFrame object). -/
def process_pipeline (cfg : PreprocessingConfig) (df : Table) :
    Except String Table × Table :=
  if cfg.handle_missing then
    match handle_missing_values cfg df with
    | .error e => (.error e, df)
    | .ok t => pipeOutliers cfg t df false
  else pipeOutliers cfg df df true

end DataPreprocessor

/-! ## Augmentation engine — services/data/augmentation.py

All randomness flows through the *global* numpy generator — the source
neither seeds it nor reads `random_seed` from its configuration (the
`config` dict handed to `DataAugmenter.__init__` is stored and never
used).  The generator is modelled by a stream `rng : Nat → Rat` and a
position that advances by one for every scalar drawn, in draw order.
A draw used as `np.random.randint(0, hi, ·)` is mapped into `[0, hi)`
by `drawNat`; draws from Beta/uniform distributions on `[0, 1)` are
mapped by `fracPart`; a draw used as `np.random.normal(0, s)` stands
directly for the realized noise (its scale does not affect any verified
property).  The cubic interpolator of `time_warp` (a deterministic
function of the warped positions, which are fresh normal draws) is
abstracted by an oracle `interpO : sample index → column name → row
index → Option Rat` (`none` is the NaN produced outside the
interpolation range with `bounds_error=False`). -/

/-- A raw stream value used as `np.random.randint(0, hi, ·)` output. -/
def drawNat (q : Rat) (hi : Nat) : Nat := q.floor.toNat % hi

/-- A raw stream value used as a Beta/uniform draw on `[0, 1)`. -/
def fracPart (q : Rat) : Rat := q - (q.floor : Rat)

namespace DataAugmenter

/-- The method names the `DataAugmenter` class body actually defines
(augmentation.py lines 16–266).  `_apply_smote` is not among them,
although `augment_dataset` dispatches to `self._apply_smote`. -/
def dataAugmenterMethods : List String :=
  ["__init__", "augment_dataset", "_apply_mixup", "_apply_random_interpolation",
   "_apply_gaussian_noise", "_apply_time_warping", "_calculate_augmentation_stats",
   "get_augmentation_stats", "validate_augmentation"]

/-- `n_samples = int(len(df) * augmentation_factor)` as an integer
(Python `int` truncates toward zero). -/
def nSamplesI (rows : Nat) (f : Rat) : Int := pyTrunc ((rows : Rat) * f)

/-- Elementwise `w * x + (1 - w) * y` over a whole row, as numpy
evaluates it in `_apply_mixup`: NaN propagates, bools count as 0/1, and
a string or datetime cell raises `TypeError`. -/
def mixVal (w : Rat) (x y : Value) : Except String Value :=
  match x, y with
  | .vstr _, _ => .error "TypeError: cannot multiply sequence by float"
  | _, .vstr _ => .error "TypeError: cannot multiply sequence by float"
  | .vtime _, _ => .error "TypeError: unsupported operand for datetime"
  | _, .vtime _ => .error "TypeError: unsupported operand for datetime"
  | .vnull, _ => .ok .vnull
  | _, .vnull => .ok .vnull
  | a, b => .ok (.vfloat (w * a.toQ + (1 - w) * b.toQ))

/-- The synthesized cells of one column under mixup, one per
(index pair, weight) triple. -/
def mixColVals (c : Col) : List Nat → List Nat → List Rat → Except String Col
  | i :: is, j :: js, w :: ws => do
      let v ← mixVal w (c.getD i .vnull) (c.getD j .vnull)
      let rest ← mixColVals c is js ws
      pure (v :: rest)
  | _, _, _ => .ok []

/-- Appending each column's synthesized mixup cells below its original
cells (the final `pd.concat([df, augmented_samples], ignore_index=True)`
column by column). -/
def mixupCols (idx1 idx2 : List Nat) (ws : List Rat) : Table → Except String Table
  | [] => .ok []
  | c :: rest =>
      match mixColVals c.2 idx1 idx2 ws with
      | .error e => .error e
      | .ok nv =>
          match mixupCols idx1 idx2 ws rest with
          | .error e => .error e
          | .ok t => .ok ((c.1, c.2 ++ nv) :: t)

/-- `_apply_mixup` (augmentation.py lines 67–92): draws `n` index pairs
and `n` Beta weights from the global generator, synthesizes
`w * row_i + (1 - w) * row_j`, and appends the new rows below the
originals (`pd.concat(..., ignore_index=True)`).  `np.random.randint`
raises when the frame is empty or the sample count is negative.
Returns the new frame and the advanced generator position. -/
def apply_mixup (df : Table) (f : Rat) (rng : Nat → Rat) (pos : Nat) :
    Except String (Table × Nat) :=
  let rows := nRows df
  let nI := nSamplesI rows f
  if nI < 0 then .error "ValueError: negative dimensions are not allowed"
  else if rows = 0 then .error "ValueError: low >= high"
  else
    let n := nI.toNat
    let idx1 := (List.range n).map (fun i => drawNat (rng (pos + i)) rows)
    let idx2 := (List.range n).map (fun i => drawNat (rng (pos + n + i)) rows)
    let ws := (List.range n).map (fun i => fracPart (rng (pos + 2 * n + i)))
    match mixupCols idx1 idx2 ws df with
    | .error e => .error e
    | .ok t => .ok (t, pos + 3 * n)

/-- `v1 + alpha * (v2 - v1)` on int64/float64 cells (NaN propagates). -/
def interpVal (alpha : Rat) (x y : Value) : Value :=
  match x, y with
  | .vnull, _ => .vnull
  | _, .vnull => .vnull
  | a, b => .vfloat (a.toQ + alpha * (b.toQ - a.toQ))

/-- The synthesized cells of one column under random interpolation:
int64/float64 columns interpolate; any other column copies the value of
row `idx1` (the sample starts as a copy of that row). -/
def interpColVals (numeric : Bool) (c : Col) : List Nat → List Nat → List Rat → Col
  | i :: is, j :: js, a :: as_ =>
      (if numeric then interpVal a (c.getD i .vnull) (c.getD j .vnull) else c.getD i .vnull)
        :: interpColVals numeric c is js as_
  | _, _, _ => []

/-- `_apply_random_interpolation` (augmentation.py lines 94–118). -/
def apply_random_interpolation (df : Table) (f : Rat) (rng : Nat → Rat) (pos : Nat) :
    Except String (Table × Nat) :=
  let rows := nRows df
  let nI := nSamplesI rows f
  if nI < 0 then .error "ValueError: negative dimensions are not allowed"
  else if rows = 0 then .error "ValueError: low >= high"
  else
    let n := nI.toNat
    let idx1 := (List.range n).map (fun i => drawNat (rng (pos + i)) rows)
    let idx2 := (List.range n).map (fun i => drawNat (rng (pos + n + i)) rows)
    let alphas := (List.range n).map (fun i => fracPart (rng (pos + 2 * n + i)))
    let t := df.map (fun c => (c.1, c.2 ++ interpColVals (isIntFloatDtype c.2) c.2 idx1 idx2 alphas))
    .ok (t, pos + 3 * n)

/-- `_apply_gaussian_noise` (augmentation.py lines 120–139): for each of
the `n` synthesized rows, one draw picks the source row (`df.sample`),
then one noise draw per int64/float64 column perturbs it
(`x + normal(0, std * 0.1)`; a NaN std — column with fewer than two
non-null values — makes the cell NaN, a zero std leaves the value).
With `n = 0` the final `pd.concat(new_samples)` of an empty list
raises. -/
def apply_gaussian_noise (df : Table) (f : Rat) (rng : Nat → Rat) (pos : Nat) :
    Except String (Table × Nat) :=
  let rows := nRows df
  let nI := nSamplesI rows f
  let n := nI.toNat
  if n = 0 then .error "ValueError: No objects to concatenate"
  else if rows = 0 then .error "ValueError: a must be greater than 0"
  else
    let numNames := (df.filter (fun c => isIntFloatDtype c.2)).map (·.1)
    let k := numNames.length
    let newCell : Nat → String × Col → Value := fun s c =>
      let base := pos + s * (1 + k)
      let ridx := drawNat (rng base) rows
      let x := c.2.getD ridx .vnull
      if isIntFloatDtype c.2 then
        match colSampleVar c.2 with
        | none => .vnull
        | some v =>
            if x.isNull then .vnull
            else if v = 0 then .vfloat x.toQ
            else .vfloat (x.toQ + rng (base + 1 + (numNames.indexOf c.1 : Nat)))
      else x
    let t := df.map (fun c => (c.1, c.2 ++ (List.range n).map (fun s => newCell s c)))
    .ok (t, pos + n * (1 + k))

/-- `_apply_time_warping` (augmentation.py lines 141–170): requires a
datetime column; each of the `n` synthesized "samples" is a *full copy
of the frame* (`sample = df.copy()`) whose int64/float64 columns are
replaced by the cubic interpolation of the column at jittered index
positions (`len(df)` fresh normal draws per sample), and the `n` copies
are appended below the original rows.  `interp1d(kind='cubic')` needs
at least four data points; `pd.concat` of zero samples raises. -/
def apply_time_warping (df : Table) (f : Rat) (_rng : Nat → Rat) (pos : Nat)
    (interpO : Nat → String → Nat → Option Rat) : Except String (Table × Nat) :=
  if ¬ df.any (fun c => isDatetimeDtype c.2) then
    .error "ValueError: No datetime column found for time warping"
  else
    let rows := nRows df
    let n := (nSamplesI rows f).toNat
    if n = 0 then .error "ValueError: No objects to concatenate"
    else if df.any (fun c => isIntFloatDtype c.2) ∧ rows < 4 then
      .error "ValueError: cubic interpolation requires at least 4 data points"
    else
      let block : Nat → String × Col → Col := fun s c =>
        if isIntFloatDtype c.2 then
          (List.range rows).map (fun j =>
            match interpO s c.1 j with
            | some q => Value.vfloat q
            | none => Value.vnull)
        else c.2
      let t := df.map (fun c => (c.1, c.2 ++ ((List.range n).map (fun s => block s c)).flatten))
      .ok (t, pos + n * rows)

def colMinQ (c : Col) : Option Rat :=
  (colVals c).foldl (fun acc x => match acc with
    | none => some x
    | some m => some (min m x)) none

def colMaxQ (c : Col) : Option Rat :=
  (colVals c).foldl (fun acc x => match acc with
    | none => some x
    | some m => some (max m x)) none

/-- The summary record `_calculate_augmentation_stats` assembles.  The
per-feature entries (means, stds, range expansion) are Python floats
whose numeric values involve irrational standard deviations and are
read by nothing in the pipeline; the embedding keeps the counts and the
ratio, and models exactly the raising behavior of the per-feature
computation: `augmentation_ratio` divides by `len(original)`, and
`range_expansion` divides by `max - min` of each original int64/float64
column, a `ZeroDivisionError` when that column is constant and
non-empty (an all-null column gives NaN / NaN without raising). -/
structure AugmentationStats where
  method : String
  original_samples : Nat
  augmented_samples : Nat
  ratioVal : Rat
deriving Repr

/-- The per-feature loop of `_calculate_augmentation_stats`, reduced to
its raising behavior (see `AugmentationStats`). -/
def statsFeatureCheck : Table → Except String Unit
  | [] => .ok ()
  | c :: rest =>
      if isIntFloatDtype c.2 then
        match colMinQ c.2, colMaxQ c.2 with
        | some lo, some hi =>
            if hi - lo = 0 then .error "ZeroDivisionError: float division by zero"
            else statsFeatureCheck rest
        | _, _ => statsFeatureCheck rest
      else statsFeatureCheck rest

def calculate_augmentation_stats (method : String) (orig aug : Table) :
    Except String AugmentationStats :=
  if nRows orig = 0 then .error "ZeroDivisionError: division by zero"
  else
    match statsFeatureCheck orig with
    | .error e => .error e
    | .ok _ => .ok { method := method, original_samples := nRows orig,
                     augmented_samples := nRows aug,
                     ratioVal := (nRows aug : Rat) / (nRows orig : Rat) }

/-- `DataAugmenter.augment_dataset` (augmentation.py lines 20–65):
dispatches on the method string — the `smote` branch invokes
`self._apply_smote`, a method the class never defines, so Python raises
`AttributeError` there — then computes the augmentation statistics.
Returns the augmented frame, the statistics and the advanced generator
position. -/
def augment_dataset (df : Table) (method : String) (f : Rat) (rng : Nat → Rat)
    (pos : Nat) (interpO : Nat → String → Nat → Option Rat) :
    Except String (Table × AugmentationStats × Nat) :=
  let branch : Except String (Table × Nat) :=
    if method = "smote" then
      if "_apply_smote" ∈ dataAugmenterMethods then
        .error "unreachable: _apply_smote is not defined"
      else
        .error "AttributeError: DataAugmenter object has no attribute _apply_smote"
    else if method = "mixup" then apply_mixup df f rng pos
    else if method = "random_interpolation" then apply_random_interpolation df f rng pos
    else if method = "gaussian_noise" then apply_gaussian_noise df f rng pos
    else if method = "time_warp" then apply_time_warping df f rng pos interpO
    else .error ("ValueError: Unsupported augmentation method: " ++ method)
  match branch with
  | .error e => .error e
  | .ok (t, pos2) =>
      match calculate_augmentation_stats method df t with
      | .error e => .error e
      | .ok stats => .ok (t, stats, pos2)

end DataAugmenter

/-! ## Pipeline orchestrator module — services/pipeline/integration.py

Whether `PipelineIntegrationService` can be constructed at all is a
question of Python name resolution, modelled here directly from the
source files: the top-level names each imported module defines, the
module's `from ... import ...` statements in order, and the names the
constructor body resolves. -/

namespace PipelineIntegration

/-- Top-level names of app/services/data/preprocessing.py. -/
def preprocessingModuleNames : List String := ["DataPreprocessor"]

/-- Top-level names of app/services/data/augmentation.py. -/
def augmentationModuleNames : List String := ["DataAugmenter"]

/-- Top-level names of app/services/data/validation.py. -/
def validationModuleNames : List String := ["DataValidationConfig", "DataValidator"]

/-- Top-level names of app/services/ml/evaluation/analysis.py (its only
class is `ModelAnalyzer`, line 13). -/
def analysisModuleNames : List String := ["ModelAnalyzer"]

/-- Top-level names of app/core/config.py. -/
def coreConfigModuleNames : List String := ["TimezoneConfig", "Settings", "settings"]

/-- The `from ... import ...` statements at the head of integration.py
(lines 12–16), in source order: the providing module's top-level names
paired with the requested name. -/
def integrationImports : List (List String × String) :=
  [(preprocessingModuleNames, "DataPreprocessor"),
   (augmentationModuleNames, "DataAugmenter"),
   (validationModuleNames, "DataValidator"),
   (analysisModuleNames, "DataAnalysisService"),
   (coreConfigModuleNames, "settings")]

/-- Loading the integration module executes its imports in order: a
`from M import N` with `N` not among `M`'s top-level names raises
`ImportError` and aborts the load; on success the imported names are in
the module's scope. -/
def integrationModuleScope : Except String (List String) :=
  integrationImports.foldlM (fun (scope : List String) im =>
    (if im.2 ∈ im.1 then Except.ok (scope ++ [im.2])
     else Except.error ("ImportError: cannot import name " ++ im.2) : Except String (List String))) []

/-- Every top-level class defined anywhere under src/backend (one entry
per `class` statement at module level).  Neither `EnhancedPreprocessor`
nor `DataAugmentationService` nor `DataAnalysisService` appears. -/
def codebaseTopLevelClasses : List String :=
  ["TimezoneConfig", "Settings", "AppLifecycle", "Base", "Dataset", "Deployment",
   "Evaluation", "MLModel", "Pipeline", "Project", "TrainingStatus", "Training", "User",
   "TimestampMixin", "DatasetBase", "DatasetCreate", "DatasetUpdate",
   "DeploymentBase", "DeploymentCreate", "DeploymentUpdate",
   "ConfusionMatrix", "MetricsConfig", "EvaluationParameters", "EvaluationBase",
   "EvaluationCreate", "EvaluationUpdate", "ModelBase", "ModelCreate", "ModelUpdate",
   "Model", "PreprocessingConfig", "AnalysisConfig", "AugmentationConfig",
   "PipelineConfig", "PipelineRequest", "PipelineResponse", "PipelineListResponse",
   "ProjectBase", "ProjectCreate", "ProjectUpdate", "TrainingWithRelations",
   "EvaluationWithRelations", "Token", "TokenPayload", "TokenData",
   "TrainingBase", "TrainingCreate", "TrainingUpdate",
   "UserBase", "UserCreate", "UserUpdate", "JWTHandler", "OAuthProvider", "OAuthHandler",
   "DataAugmenter", "DataPreprocessor", "DataValidationConfig", "DataValidator",
   "ModelExporter", "PredictionRequest", "PredictionResponse", "ModelServer",
   "ModelDeploymentService", "ModelAnalyzer", "MetricsCalculator",
   "CustomDataset", "PyTorchTrainer", "SklearnTrainer", "TensorFlowTrainer",
   "BayesianOptimizer", "GridSearch", "RandomSearch", "PipelineIntegrationService",
   "CloudStorage", "LocalStorage", "CustomJSONFormatter", "SystemMonitor",
   "TrainingConfigValidator", "FileValidator", "ModelConfigValidator"]

/-- `PipelineIntegrationService(config)`: the module must load, then
`__init__` (integration.py lines 21–33) resolves `EnhancedPreprocessor`
(line 23) and `DataAugmentationService` (line 24) against the module
scope — names no import provides and no file of the codebase defines.
The configuration argument cannot influence the outcome: name
resolution precedes every use of it. -/
def constructPipelineIntegrationService (_cfg : Option (List (String × String))) :
    Except String Unit :=
  match integrationModuleScope with
  | .error e => .error e
  | .ok scope =>
      let scope2 := scope ++ ["PipelineIntegrationService"]
      if "EnhancedPreprocessor" ∈ scope2 then
        if "DataAugmentationService" ∈ scope2 then .ok ()
        else .error "NameError: name DataAugmentationService is not defined"
      else .error "NameError: name EnhancedPreprocessor is not defined"

/-- `process_dataset` is an instance method: invoking it requires a
successfully constructed `PipelineIntegrationService`.  This predicate
is true exactly when such an instance can exist under the given
configuration. -/
def processDatasetReachable (cfg : Option (List (String × String))) : Bool :=
  match constructPipelineIntegrationService cfg with
  | .error _ => false
  | .ok _ => true

end PipelineIntegration

/-! ## Numeric normalizer — modelled from the spec (§2, §4.1)

Modelled from the spec: the numeric-normalizer component ("recursively
walks arbitrary nested structures ... and converts platform-specific
numeric representations into portable scalar forms") is described by
the specification but is not among the source files under review; the
definitions below follow §4.1 literally.  Scalars are either already
portable (Python int / float / bool / str / None) or one of the
non-portable numeric forms §2 and §4.1 name: fixed-width integers,
narrow floating types, boolean-mask elements.  The supported integer
domain is the signed 64-bit range (a fixed-width integer's value fits
its width). -/

/-- A scalar of a nested structure fed to the normalizer. -/
inductive NScalar where
  | pint : Int → NScalar
  | pfloat : Rat → NScalar
  | pbool : Bool → NScalar
  | pstr : String → NScalar
  | pnull : NScalar
  | npInt : Int → NScalar
  | npFloat : Rat → NScalar
  | npBool : Bool → NScalar
deriving DecidableEq, Repr

/-- A nested value: scalar, sequence, or keyed mapping (order and keys
preserved). -/
inductive NVal where
  | scalar : NScalar → NVal
  | seq : List NVal → NVal
  | kmap : List (String × NVal) → NVal

/-- Scalar conversion: fixed-width integers widen to plain integers,
narrow floats widen to 64-bit floats, mask elements become plain
booleans; portable scalars pass through. -/
def normScalar : NScalar → NScalar
  | .npInt n => .pint n
  | .npFloat q => .pfloat q
  | .npBool b => .pbool b
  | s => s

mutual

/-- The normalizer: recurses into sequences and keyed mappings
preserving order and keys, converting every scalar. -/
def normalize : NVal → NVal
  | .scalar s => .scalar (normScalar s)
  | .seq xs => .seq (normalizeList xs)
  | .kmap xs => .kmap (normalizeKMap xs)

def normalizeList : List NVal → List NVal
  | [] => []
  | x :: xs => normalize x :: normalizeList xs

def normalizeKMap : List (String × NVal) → List (String × NVal)
  | [] => []
  | kv :: xs => (kv.1, normalize kv.2) :: normalizeKMap xs

end

def int64Lo : Int := -(2 ^ 63)
def int64Hi : Int := 2 ^ 63 - 1

/-- A scalar is portable when it is a signed 64-bit-range integer, a
64-bit float, a boolean, a string, or null. -/
def scalarPortable : NScalar → Bool
  | .pint n => decide (int64Lo ≤ n ∧ n ≤ int64Hi)
  | .pfloat _ => true
  | .pbool _ => true
  | .pstr _ => true
  | .pnull => true
  | _ => false

/-- The supported input domain: every integer scalar (plain or
fixed-width) carries a value within the signed 64-bit range. -/
def scalarWF : NScalar → Bool
  | .pint n => decide (int64Lo ≤ n ∧ n ≤ int64Hi)
  | .npInt n => decide (int64Lo ≤ n ∧ n ≤ int64Hi)
  | _ => true

mutual

def nvalWF : NVal → Bool
  | .scalar s => scalarWF s
  | .seq xs => nvalWFList xs
  | .kmap xs => nvalWFKMap xs

def nvalWFList : List NVal → Bool
  | [] => true
  | x :: xs => nvalWF x && nvalWFList xs

def nvalWFKMap : List (String × NVal) → Bool
  | [] => true
  | kv :: xs => nvalWF kv.2 && nvalWFKMap xs

end

mutual

def nvalPortable : NVal → Bool
  | .scalar s => scalarPortable s
  | .seq xs => nvalPortableList xs
  | .kmap xs => nvalPortableKMap xs

def nvalPortableList : List NVal → Bool
  | [] => true
  | x :: xs => nvalPortable x && nvalPortableList xs

def nvalPortableKMap : List (String × NVal) → Bool
  | [] => true
  | kv :: xs => nvalPortable kv.2 && nvalPortableKMap xs

end

/-! ## Derived views and concrete instances used by the theorems -/

/-- The column lengths of a frame, in column order. -/
def colLens (t : Table) : List Nat := t.map (fun c => c.2.length)

/-- The first `k` rows of a frame. -/
def takeRows (k : Nat) (t : Table) : Table := t.map (fun c => (c.1, c.2.take k))

/-- The rows of a frame below the first `k` (for a frame produced by
augmentation with original row count `k`, exactly the synthesized
rows). -/
def dropRows (k : Nat) (t : Table) : Table := t.map (fun c => (c.1, c.2.drop k))

/-- `floor(rows * factor)` for a non-negative factor — the synthesized
sample count of the augmentation methods. -/
def nSyn (df : Table) (f : Rat) : Nat := (DataAugmenter.nSamplesI (nRows df) f).toNat

/-- A cell that participates in numpy row arithmetic without a
`TypeError`: anything but a string or datetime. -/
def mixableValue : Value → Bool
  | .vstr _ => false
  | .vtime _ => false
  | _ => true

/-- Every cell of the frame participates in numpy row arithmetic
without a `TypeError` (what `_apply_mixup` needs to synthesize a
row). -/
def mixableTable (df : Table) : Bool :=
  df.all (fun c => c.2.all mixableValue)

/-- `_calculate_augmentation_stats` returns without raising: the frame
is non-empty and no int64/float64 column is constant (a constant column
makes `range_expansion` divide by zero). -/
def statsSafe (df : Table) : Bool :=
  (0 < nRows df) &&
  df.all (fun c =>
    if isIntFloatDtype c.2 then
      match DataAugmenter.colMinQ c.2, DataAugmenter.colMaxQ c.2 with
      | some lo, some hi => !(hi - lo == 0)
      | _, _ => true
    else true)

/-- The row count of a successful augmentation result. -/
def augRowCount (r : Except String (Table × DataAugmenter.AugmentationStats × Nat)) :
    Option Nat :=
  match r with
  | .ok x => some (nRows x.1)
  | .error _ => none

/-- Two successive invocations of `augment_dataset` on the same frame:
the second call continues from the global generator position at which
the first call left off — exactly what calling the method twice in one
process does.  Returns the two augmented frames when both calls
succeed. -/
def augmentTwice (df : Table) (method : String) (f : Rat) (rng : Nat → Rat)
    (interpO : Nat → String → Nat → Option Rat) : Option (Table × Table) :=
  match DataAugmenter.augment_dataset df method f rng 0 interpO with
  | .error _ => none
  | .ok (t1, _, pos1) =>
      match DataAugmenter.augment_dataset df method f rng pos1 interpO with
      | .error _ => none
      | .ok (t2, _, _) => some (t1, t2)

/-- The column of the spec's outlier scenario: `[10, 12, 11, 1000, 9]`. -/
def exCol5 : Col := [.vint 10, .vint 12, .vint 11, .vint 1000, .vint 9]

/-- A frame whose single column holds ten `0`s and one `11` — the `11`
has z-score `10 / sqrt 11 ≈ 3.015 > 3` under the sample std, so the
zscore step replaces it (by the median `0`). -/
def exDf8 : Table := [("a", List.replicate 10 (Value.vint 0) ++ [Value.vint 11])]

/-- A preprocessing configuration with missing-value handling disabled
and only the outlier step enabled. -/
def exCfg8 : PreprocessingConfig :=
  { handle_missing := false, encode_categorical := false, scale_numerical := false }

/-- A 4-row frame with a datetime column and a non-constant float
column — a well-formed input for `time_warp`. -/
def exDfTW : Table :=
  [("ts", [.vtime 0, .vtime 1, .vtime 2, .vtime 3]),
   ("x", [.vfloat 0, .vfloat 1, .vfloat 2, .vfloat 10])]

/-- A 2-row one-column numeric frame. -/
def exDfPair : Table := [("x", [.vfloat 0, .vfloat 10])]

/-- The all-zero random stream. -/
def exStreamZero : Nat → Rat := fun _ => 0

/-- An interpolation oracle (any one will do for row-count facts). -/
def exInterpNone : Nat → String → Nat → Option Rat := fun _ _ _ => none

/-- A 2-row frame for the mixup determinism scenario. -/
def exDf7 : Table := [("x", [.vfloat 0, .vfloat 100])]

/-- A concrete global-generator stream: the first `augment(T, "mixup",
0.5)` call consumes positions 0–2 (row pair 0 and 1, weight 0), the
second consumes positions 3–5 (row pair 0 and 1, weight 1/2). -/
def exStream7 : Nat → Rat :=
  fun k => if k = 1 ∨ k = 4 then 1 else if k = 5 then (1 : Rat) / 2 else 0

/-- A stream agreeing with `exStream7` on the three draws one mixup
call on `exDf7` consumes, arbitrary elsewhere. -/
def exStream7b : Nat → Rat := fun k => if k < 3 then exStream7 k else 99

/-- Witness frame for the transform row-count invariant: a numeric
column and a string column with a missing cell. -/
def exDf6 : Table := [("a", [.vint 1, .vint 2]), ("b", [.vstr "u", .vnull])]

/-- Witness nested structure for the normalizer: a keyed mapping
holding a fixed-width integer, a sequence with a narrow float, a mask
element and a null, and a plain string. -/
def exNVal : NVal :=
  .kmap [("a", .scalar (.npInt 7)),
         ("b", .seq [.scalar (.npFloat ((3 : Rat) / 2)), .scalar (.npBool true), .scalar .pnull]),
         ("c", .scalar (.pstr "x"))]

/-- What the default-configuration pipeline produces on `exDf6`: the
missing cell is mode-filled, the string column label-encoded, and both
columns standard-scaled. -/
def exDf6Out : Table :=
  [("a", [.vscaled (-(1 : Rat)/2) ((1 : Rat)/4), .vscaled ((1 : Rat)/2) ((1 : Rat)/4)]),
   ("b", [.vfloat 0, .vfloat 0])]

/-! # Theorems -/

/-- Reading the absent attribute always raises: the four declared
fields of `DataValidationConfig` do not include `max_missing_ratio`. -/
theorem getMaxMissingRatio_error (cfg : DataValidationConfig) :
    getMaxMissingRatio cfg =
      .error "AttributeError: DataValidationConfig object has no attribute max_missing_ratio" := rfl

/-- Claim C1: the claim states that `validate_dataset` returns an
`(is_valid, violations)` pair and never raises for validation failures
(raising only for malformed rules).  The code violates it:
`_check_missing_values` runs unconditionally and its per-column loop
reads `self.config.max_missing_ratio`, an attribute
`DataValidationConfig` never declares — so for every rules object and
every frame with at least one column, the call raises `AttributeError`
on the first column processed.  (Only the degenerate zero-column frame
escapes, because the attribute read sits inside the
`for column in df.columns:` loop.) -/
theorem validate_dataset_raises_with_any_column (cfg : DataValidationConfig)
    (df : Table) (h : df ≠ []) :
    isErr (DataValidator.validate_dataset cfg df) = true := by
  cases df with
  | nil => exact absurd rfl h
  | cons c rest =>
      unfold DataValidator.validate_dataset
      cases hv : (if cfg.value_ranges.isEmpty then (Except.ok [] : Except String (List String))
                  else DataValidator.check_value_ranges cfg (c :: rest)) with
      | error e => rfl
      | ok l => rfl

/-- Witness: a one-column frame and an all-empty (well-formed) rules
object make `validate_dataset` raise. -/
theorem validate_dataset_raises_witness :
    ([("a", [Value.vint 1])] : Table) ≠ []
  ∧ isErr (DataValidator.validate_dataset ⟨[], [], [], []⟩ [("a", [Value.vint 1])]) = true :=
  ⟨by decide,
   validate_dataset_raises_with_any_column ⟨[], [], [], []⟩ [("a", [Value.vint 1])] (by decide)⟩

/-- Claim C2: the claimed continue-on-error behavior of
`process_dataset` presupposes an instance of
`PipelineIntegrationService` on which to invoke it; no construction
ever succeeds (the module's own import of `DataAnalysisService` fails,
and `__init__` resolves undefined names), so `process_dataset` never
returns any run report at all. -/
theorem process_dataset_never_reachable (cfg : Option (List (String × String))) :
    PipelineIntegration.processDatasetReachable cfg = false := rfl

/-- Claim C10: the analysis module defines only `ModelAnalyzer` (not
`DataAnalysisService`), `EnhancedPreprocessor` and
`DataAugmentationService` are defined by no class statement in the
codebase, and for every configuration argument the construction of
`PipelineIntegrationService` raises (the module load already dies with
`ImportError`). -/
theorem pipeline_service_construction_always_fails :
    PipelineIntegration.analysisModuleNames.contains "DataAnalysisService" = false
  ∧ PipelineIntegration.codebaseTopLevelClasses.contains "EnhancedPreprocessor" = false
  ∧ PipelineIntegration.codebaseTopLevelClasses.contains "DataAugmentationService" = false
  ∧ ∀ cfg, PipelineIntegration.constructPipelineIntegrationService cfg =
      .error "ImportError: cannot import name DataAnalysisService" :=
  ⟨rfl, rfl, rfl, fun _ => rfl⟩

/-- Claim C4: the claim states that `augment_dataset` with method
`smote` balances classes or falls back to random oversampling rather
than raising.  The code violates it: the `smote` branch dispatches to
`self._apply_smote`, a method `DataAugmenter` never defines, so every
`smote` invocation raises `AttributeError` — for every frame, factor,
generator state and interpolation oracle. -/
theorem augment_smote_always_raises (df : Table) (f : Rat) (rng : Nat → Rat)
    (pos : Nat) (interpO : Nat → String → Nat → Option Rat) :
    DataAugmenter.augment_dataset df "smote" f rng pos interpO =
      .error "AttributeError: DataAugmenter object has no attribute _apply_smote" := rfl

/-- Claim C5, counterexample: on the column `[10, 12, 11, 1000, 9]`
with the zscore method and threshold 3, the step returns the column
*unchanged* — the cell at index 3 is still `1000`, not the median `11`
the claim requires.  (With five data points the largest attainable
z-score under the sample standard deviation is `4 / sqrt 5 ≈ 1.789`;
`1000` scores `791.6 / 442.52 ≈ 1.789`, below 3.) -/
theorem outlier_scenario_threshold3_counterexample :
    DataPreprocessor.process_column_outliers 3 "zscore" exCol5 = exCol5
  ∧ (DataPreprocessor.process_column_outliers 3 "zscore" exCol5).getD 3 Value.vnull
      = Value.vint 1000
  ∧ (Value.toQ ((DataPreprocessor.process_column_outliers 3 "zscore" exCol5).getD 3 Value.vnull)
      == (11 : Rat)) = false := by
  refine ⟨?_, ?_, ?_⟩ <;> with_unfolding_all rfl

/-- Claim C5 as amended: on `[10, 12, 11, 1000, 9]` the zscore step
with threshold 3 leaves every value (including `1000`) unchanged; only
below the maximal attainable z-score `10 / sqrt(11·...)` — e.g. at
threshold `7/4` — is `1000` replaced by the column median `11` (as a
float), the other values unchanged. -/
theorem outlier_scenario_amended :
    DataPreprocessor.process_column_outliers 3 "zscore" exCol5 = exCol5
  ∧ DataPreprocessor.process_column_outliers ((7 : Rat) / 4) "zscore" exCol5
      = [.vint 10, .vint 12, .vint 11, .vfloat 11, .vint 9] := by
  refine ⟨?_, ?_⟩ <;> with_unfolding_all rfl

/-- Once the running frame is no longer the caller's object, the
scaling step cannot touch the caller. -/
theorem pipeScale_keeps_caller (cfg : PreprocessingConfig) (cur caller : Table) :
    (DataPreprocessor.pipeScale cfg cur caller false).2 = caller := by
  unfold DataPreprocessor.pipeScale
  split <;> rfl

theorem pipeEncode_keeps_caller (cfg : PreprocessingConfig) (cur caller : Table) :
    (DataPreprocessor.pipeEncode cfg cur caller false).2 = caller := by
  unfold DataPreprocessor.pipeEncode
  split
  · cases hp : (DataPreprocessor.encode_categorical_table cur).1 with
    | error e => simp [hp]
    | ok t => simp [hp, pipeScale_keeps_caller]
  · exact pipeScale_keeps_caller cfg cur caller

theorem pipeEngineer_keeps_caller (cfg : PreprocessingConfig) (cur caller : Table) :
    (DataPreprocessor.pipeEngineer cfg cur caller false).2 = caller := by
  unfold DataPreprocessor.pipeEngineer
  split
  · cases hp : (DataPreprocessor.engineer_features_table cfg cur).1 with
    | error e => simp [hp]
    | ok t => simp [hp, pipeEncode_keeps_caller]
  · exact pipeEncode_keeps_caller cfg cur caller

theorem pipeOutliers_keeps_caller (cfg : PreprocessingConfig) (cur caller : Table) :
    (DataPreprocessor.pipeOutliers cfg cur caller false).2 = caller := by
  unfold DataPreprocessor.pipeOutliers
  split
  · cases hp : (DataPreprocessor.handle_outliers_table cfg cur).1 with
    | error e => simp [hp]
    | ok t => simp [hp, pipeEngineer_keeps_caller]
  · exact pipeEngineer_keeps_caller cfg cur caller

/-- Claim C8, counterexample: with missing-value handling disabled and
only the outlier step enabled, `process_pipeline` mutates the caller's
DataFrame in place: on the column of ten `0`s and one `11`, the
caller's object afterwards holds `0.0` where it held `11` (the zscore
step wrote the median through the alias). -/
theorem process_pipeline_mutates_caller_counterexample :
    (DataPreprocessor.process_pipeline exCfg8 exDf8).2
      = [("a", List.replicate 10 (Value.vint 0) ++ [Value.vfloat 0])]
  ∧ ((DataPreprocessor.process_pipeline exCfg8 exDf8).2 == exDf8) = false := by
  refine ⟨?_, ?_⟩ <;> with_unfolding_all rfl

/-- Claim C8 as amended: when missing-value handling is enabled (the
source default), the missing step rebuilds the frame into a fresh
object before any mutating step runs, so the caller's DataFrame is left
unchanged for every table and configuration; with `handle_missing`
disabled, the outlier / encoding / scaling steps mutate the caller's
object in place (see the counterexample). -/
theorem process_pipeline_keeps_caller_when_missing_enabled
    (cfg : PreprocessingConfig) (df : Table) (h : cfg.handle_missing = true) :
    (DataPreprocessor.process_pipeline cfg df).2 = df := by
  unfold DataPreprocessor.process_pipeline
  rw [h]
  simp only [if_true]
  cases hm : DataPreprocessor.handle_missing_values cfg df with
  | error e => rfl
  | ok t => exact pipeOutliers_keeps_caller cfg t df

/-- Witness: the amended C8 theorem applied to the default
configuration and a concrete frame. -/
theorem process_pipeline_keeps_caller_witness :
    ({} : PreprocessingConfig).handle_missing = true
  ∧ (DataPreprocessor.process_pipeline {} exDf6).2 = exDf6 :=
  ⟨rfl, process_pipeline_keeps_caller_when_missing_enabled {} exDf6 rfl⟩

/-! Row-count preservation of the transform steps (claim C6). -/

theorem nRows_eq_headD (t : Table) : nRows t = (colLens t).headD 0 := by
  cases t <;> rfl

theorem colLens_nRows {t1 t2 : Table} (h : colLens t2 = colLens t1) :
    nRows t2 = nRows t1 := by
  rw [nRows_eq_headD, nRows_eq_headD, h]

theorem uniform_of_colLens {t1 t2 : Table} (h : colLens t2 = colLens t1)
    (hu : uniformTable t1 = true) : uniformTable t2 = true := by
  simp only [uniformTable, List.all_eq_true, decide_eq_true_eq] at hu ⊢
  intro c hc
  have hmem : c.2.length ∈ colLens t2 := List.mem_map_of_mem _ hc
  rw [h] at hmem
  obtain ⟨c1, hc1, hlen⟩ := List.mem_map.mp hmem
  rw [colLens_nRows h, ← hlen]
  exact hu c1 hc1

theorem process_column_missing_length {s : String} {c c2 : Col}
    (h : DataPreprocessor.process_column_missing s c = .ok c2) :
    c2.length = c.length := by
  unfold DataPreprocessor.process_column_missing at h
  repeat' split at h
  all_goals first
    | (injection h with h2; subst h2; simp [DataPreprocessor.fillCol])
    | injection h

theorem missingCols_colLens {s : String} : ∀ {df t : Table},
    DataPreprocessor.missingCols s df = .ok t → colLens t = colLens df := by
  intro df
  induction df with
  | nil =>
      intro t h
      unfold DataPreprocessor.missingCols at h
      injection h with h2
      subst h2
      rfl
  | cons c rest ih =>
      intro t h
      unfold DataPreprocessor.missingCols at h
      cases hp : DataPreprocessor.process_column_missing s c.2 with
      | error e => rw [hp] at h; cases h
      | ok c2 =>
          rw [hp] at h
          cases hr : DataPreprocessor.missingCols s rest with
          | error e => rw [hr] at h; cases h
          | ok t2 =>
              rw [hr] at h
              injection h with h2
              subst h2
              simp only [colLens, List.map_cons]
              rw [process_column_missing_length hp]
              have := ih hr
              simp only [colLens] at this
              rw [this]

theorem handle_missing_values_colLens {cfg : PreprocessingConfig} {df t : Table}
    (h : DataPreprocessor.handle_missing_values cfg df = .ok t) :
    colLens t = colLens df := by
  unfold DataPreprocessor.handle_missing_values at h
  split at h
  next e heq => cases h
  next cols heq =>
    split at h
    · cases h
    · injection h with h2
      subst h2
      exact missingCols_colLens heq

theorem process_column_outliers_length (t : Rat) (m : String) (c : Col) :
    (DataPreprocessor.process_column_outliers t m c).length = c.length := by
  unfold DataPreprocessor.process_column_outliers
  repeat' split
  all_goals simp

theorem handle_outliers_table_snd_colLens (cfg : PreprocessingConfig) (df : Table) :
    colLens (DataPreprocessor.handle_outliers_table cfg df).2 = colLens df := by
  simp [DataPreprocessor.handle_outliers_table, colLens, List.map_map, Function.comp,
        process_column_outliers_length]

theorem handle_outliers_table_ok {cfg : PreprocessingConfig} {df t : Table}
    (h : (DataPreprocessor.handle_outliers_table cfg df).1 = .ok t) :
    t = (DataPreprocessor.handle_outliers_table cfg df).2 := by
  unfold DataPreprocessor.handle_outliers_table at h ⊢
  split at h
  · cases h
  · injection h with h2
    subst h2
    rfl

theorem encodeCol_length (c : Col) : (DataPreprocessor.encodeCol c).length = c.length := by
  simp [DataPreprocessor.encodeCol]

theorem encode_categorical_table_snd_colLens (df : Table) :
    colLens (DataPreprocessor.encode_categorical_table df).2 = colLens df := by
  simp only [DataPreprocessor.encode_categorical_table, colLens, List.map_map]
  apply List.map_congr_left
  intro c _
  by_cases hc : isObjectDtype c.2 = true <;> simp [hc, encodeCol_length]

theorem encode_categorical_table_ok {df t : Table}
    (h : (DataPreprocessor.encode_categorical_table df).1 = .ok t) :
    t = (DataPreprocessor.encode_categorical_table df).2 := by
  unfold DataPreprocessor.encode_categorical_table at h ⊢
  split at h
  · cases h
  · injection h with h2
    subst h2
    rfl

theorem scaleCol_length {c c2 : Col} (h : DataPreprocessor.scaleCol c = .ok c2) :
    c2.length = c.length := by
  unfold DataPreprocessor.scaleCol at h
  repeat' split at h
  all_goals first
    | (injection h with h2; subst h2; simp)
    | injection h

theorem scale_numerical_go_ok : ∀ {df t : Table},
    (DataPreprocessor.scale_numerical_go df).1 = .ok t → colLens t = colLens df := by
  intro df
  induction df with
  | nil =>
      intro t h
      unfold DataPreprocessor.scale_numerical_go at h
      injection h with h2
      subst h2
      rfl
  | cons c rest ih =>
      intro t h
      unfold DataPreprocessor.scale_numerical_go at h
      split at h
      · cases hs : DataPreprocessor.scaleCol c.2 with
        | error e => rw [hs] at h; cases h
        | ok sc =>
            rw [hs] at h
            cases hr : (DataPreprocessor.scale_numerical_go rest).1 with
            | error e => rw [hr] at h; cases h
            | ok t2 =>
                rw [hr] at h
                injection h with h2
                subst h2
                simp only [colLens, List.map_cons]
                rw [scaleCol_length hs]
                have := ih hr
                simp only [colLens] at this
                rw [this]
      · cases hr : (DataPreprocessor.scale_numerical_go rest).1 with
        | error e => rw [hr] at h; cases h
        | ok t2 =>
            rw [hr] at h
            injection h with h2
            subst h2
            simp only [colLens, List.map_cons]
            have := ih hr
            simp only [colLens] at this
            rw [this]

theorem scale_numerical_table_ok {df t : Table}
    (h : (DataPreprocessor.scale_numerical_table df).1 = .ok t) :
    colLens t = colLens df := by
  unfold DataPreprocessor.scale_numerical_table at h
  cases hg : (DataPreprocessor.scale_numerical_go df).1 with
  | error e => rw [hg] at h; cases h
  | ok t2 =>
      rw [hg] at h
      dsimp only at h
      split at h
      · cases h
      · injection h with h2
        subst h2
        exact scale_numerical_go_ok hg

theorem lookupCol_length {t : Table} {nm : String} {c : Col}
    (h : lookupCol t nm = some c) (hu : uniformTable t = true) :
    c.length = nRows t := by
  unfold lookupCol at h
  cases hf : t.find? (fun x => x.1 = nm) with
  | none => rw [hf] at h; cases h
  | some p =>
      rw [hf] at h
      injection h with h2
      subst h2
      have hm := List.mem_of_find?_eq_some hf
      simp only [uniformTable, List.all_eq_true, decide_eq_true_eq] at hu
      exact hu p hm

theorem pyMulCol_length : ∀ {c1 c2 c : Col},
    DataPreprocessor.pyMulCol c1 c2 = .ok c → c.length = min c1.length c2.length := by
  intro c1
  induction c1 with
  | nil =>
      intro c2 c h
      simp only [DataPreprocessor.pyMulCol] at h
      injection h with h2
      subst h2
      simp
  | cons a as_ ih =>
      intro c2 c h
      cases c2 with
      | nil =>
          simp only [DataPreprocessor.pyMulCol] at h
          injection h with h2
          subst h2
          simp
      | cons b bs =>
          simp only [DataPreprocessor.pyMulCol] at h
          cases hv : DataPreprocessor.pyMul a b with
          | error e => rw [hv] at h; cases h
          | ok v =>
              rw [hv] at h
              cases hr : DataPreprocessor.pyMulCol as_ bs with
              | error e => rw [hr] at h; cases h
              | ok rest =>
                  rw [hr] at h
                  injection h with h2
                  subst h2
                  simp [ih hr, Nat.succ_min_succ]

theorem setCol_uniform_nRows {t : Table} {nm : String} {c : Col}
    (hu : uniformTable t = true) (hc : c.length = nRows t) :
    uniformTable (DataPreprocessor.setCol t nm c) = true
    ∧ nRows (DataPreprocessor.setCol t nm c) = nRows t := by
  unfold DataPreprocessor.setCol
  by_cases hex : hasCol t nm = true
  · rw [if_pos hex]
    have hn : nRows (t.map (fun x => if x.1 = nm then (nm, c) else x)) = nRows t := by
      cases t with
      | nil => rfl
      | cons c0 rest =>
          show (if c0.1 = nm then (nm, c) else c0).2.length = c0.2.length
          by_cases h0 : c0.1 = nm
          · rw [if_pos h0]
            exact hc
          · rw [if_neg h0]
    refine ⟨?_, hn⟩
    simp only [uniformTable, List.all_eq_true, decide_eq_true_eq] at hu ⊢
    intro x hx
    obtain ⟨x0, hx0, hfx⟩ := List.mem_map.mp hx
    rw [hn, ← hfx]
    by_cases h0 : x0.1 = nm
    · rw [if_pos h0]
      exact hc
    · rw [if_neg h0]
      exact hu x0 hx0
  · rw [if_neg hex]
    have hn : nRows (t ++ [(nm, c)]) = nRows t := by
      cases t with
      | nil => simpa using hc
      | cons c0 rest => rfl
    refine ⟨?_, hn⟩
    simp only [uniformTable, List.all_eq_true, decide_eq_true_eq] at hu ⊢
    intro x hx
    rw [hn]
    rcases List.mem_append.mp hx with hx1 | hx2
    · exact hu x hx1
    · simp only [List.mem_singleton] at hx2
      subst hx2
      exact hc

theorem engineer_go_ok : ∀ (ps : List (String × String)) {t r : Table},
    uniformTable t = true →
    (DataPreprocessor.engineer_features_go ps t).1 = .ok r →
    uniformTable r = true ∧ nRows r = nRows t := by
  intro ps
  induction ps with
  | nil =>
      intro t r hu h
      unfold DataPreprocessor.engineer_features_go at h
      injection h with h2
      subst h2
      exact ⟨hu, rfl⟩
  | cons p ps ih =>
      intro t r hu h
      unfold DataPreprocessor.engineer_features_go at h
      cases h1 : lookupCol t p.1 with
      | none =>
          rw [h1] at h
          dsimp only at h
          exact ih hu h
      | some c1 =>
          rw [h1] at h
          cases h2 : lookupCol t p.2 with
          | none =>
              rw [h2] at h
              dsimp only at h
              exact ih hu h
          | some c2 =>
              rw [h2] at h
              dsimp only at h
              cases hm : DataPreprocessor.pyMulCol c1 c2 with
              | error e => rw [hm] at h; cases h
              | ok c =>
                  rw [hm] at h
                  have hc : c.length = nRows t := by
                    rw [pyMulCol_length hm, lookupCol_length h1 hu,
                        lookupCol_length h2 hu, Nat.min_self]
                  obtain ⟨hu2, hn2⟩ := setCol_uniform_nRows hu hc
                  obtain ⟨hur, hnr⟩ := ih hu2 h
                  exact ⟨hur, hnr.trans hn2⟩

theorem pipeScale_rows {cfg : PreprocessingConfig} {cur caller : Table} {al : Bool}
    {r : Table} (h : (DataPreprocessor.pipeScale cfg cur caller al).1 = .ok r) :
    nRows r = nRows cur := by
  unfold DataPreprocessor.pipeScale at h
  split at h
  · exact colLens_nRows (scale_numerical_table_ok h)
  · injection h with h2
    subst h2
    rfl

theorem pipeEncode_rows {cfg : PreprocessingConfig} {cur caller : Table} {al : Bool}
    {r : Table} (h : (DataPreprocessor.pipeEncode cfg cur caller al).1 = .ok r) :
    nRows r = nRows cur := by
  unfold DataPreprocessor.pipeEncode at h
  split at h
  · dsimp only at h
    cases hp : (DataPreprocessor.encode_categorical_table cur).1 with
    | error e => rw [hp] at h; cases h
    | ok t =>
        rw [hp] at h
        have ht := encode_categorical_table_ok hp
        have hcl : colLens t = colLens cur := by
          rw [ht]; exact encode_categorical_table_snd_colLens cur
        rw [pipeScale_rows h]
        exact colLens_nRows hcl
  · exact pipeScale_rows h

theorem pipeEngineer_rows {cfg : PreprocessingConfig} {cur caller : Table} {al : Bool}
    {r : Table} (hu : uniformTable cur = true)
    (h : (DataPreprocessor.pipeEngineer cfg cur caller al).1 = .ok r) :
    nRows r = nRows cur := by
  unfold DataPreprocessor.pipeEngineer at h
  split at h
  · dsimp only at h
    cases hp : (DataPreprocessor.engineer_features_table cfg cur).1 with
    | error e => rw [hp] at h; cases h
    | ok t =>
        rw [hp] at h
        obtain ⟨hut, hnt⟩ := engineer_go_ok cfg.feature_interactions hu hp
        rw [pipeEncode_rows h]
        exact hnt
  · exact pipeEncode_rows h

theorem pipeOutliers_rows {cfg : PreprocessingConfig} {cur caller : Table} {al : Bool}
    {r : Table} (hu : uniformTable cur = true)
    (h : (DataPreprocessor.pipeOutliers cfg cur caller al).1 = .ok r) :
    nRows r = nRows cur := by
  unfold DataPreprocessor.pipeOutliers at h
  split at h
  · dsimp only at h
    cases hp : (DataPreprocessor.handle_outliers_table cfg cur).1 with
    | error e => rw [hp] at h; cases h
    | ok t =>
        rw [hp] at h
        have ht := handle_outliers_table_ok hp
        have hcl : colLens t = colLens cur := by
          rw [ht]; exact handle_outliers_table_snd_colLens cfg cur
        rw [pipeEngineer_rows (uniform_of_colLens hcl hu) h]
        exact colLens_nRows hcl
  · exact pipeEngineer_rows hu h

/-- Claim C6: the Column Transform Engine's `process_pipeline` never
drops or adds a row.  For every uniform frame and every configuration,
whenever the pipeline returns (rather than re-raising a step's
exception) the returned data has exactly the input's row count: the
missing-value step fills cells, the outlier step masks them, feature
engineering only adds columns, and encoding and scaling map columns
elementwise. -/
theorem process_pipeline_preserves_rows (cfg : PreprocessingConfig) (df r : Table)
    (hu : uniformTable df = true)
    (h : (DataPreprocessor.process_pipeline cfg df).1 = .ok r) :
    nRows r = nRows df := by
  unfold DataPreprocessor.process_pipeline at h
  split at h
  · cases hm : DataPreprocessor.handle_missing_values cfg df with
    | error e => rw [hm] at h; cases h
    | ok t =>
        rw [hm] at h
        have hcl := handle_missing_values_colLens hm
        rw [pipeOutliers_rows (uniform_of_colLens hcl hu) h]
        exact colLens_nRows hcl
  · exact pipeOutliers_rows hu h

/-- Witness: the row-count theorem applied to a concrete frame under
the default configuration (every step enabled, `mean` strategy). -/
theorem process_pipeline_preserves_rows_witness :
    uniformTable exDf6 = true
  ∧ (DataPreprocessor.process_pipeline {} exDf6).1 = .ok exDf6Out
  ∧ nRows exDf6Out = nRows exDf6 := by
  refine ⟨by decide, by with_unfolding_all rfl, ?_⟩
  exact process_pipeline_preserves_rows {} exDf6 exDf6Out (by decide)
    (by with_unfolding_all rfl)

/-! Mixup determinism (claim C7). -/

theorem range_map_congr {α : Type} (n : Nat) (f g : Nat → α)
    (h : ∀ i, i < n → f i = g i) : (List.range n).map f = (List.range n).map g := by
  apply List.map_congr_left
  intro a ha
  exact h a (List.mem_range.mp ha)

/-- Claim C7, counterexample: the code never reads the configuration's
`random_seed` (the `config` dict of `DataAugmenter.__init__` is stored
and never consulted), so two invocations of
`augment(T, "mixup", 0.5)` draw from wherever the *global* generator
stands.  Under the concrete global stream `exStream7`, the first call
synthesizes the row `[100.0]` and the second call — continuing at the
position the first left off — synthesizes `[50.0]`: the synthesized
rows differ. -/
theorem mixup_two_invocations_differ :
    augmentTwice exDf7 "mixup" ((1 : Rat) / 2) exStream7 exInterpNone
      = some ([("x", [.vfloat 0, .vfloat 100, .vfloat 100])],
              [("x", [.vfloat 0, .vfloat 100, .vfloat 50])])
  ∧ (dropRows 2 [("x", [Value.vfloat 0, Value.vfloat 100, Value.vfloat 100])]
       == dropRows 2 [("x", [Value.vfloat 0, Value.vfloat 100, Value.vfloat 50])]) = false := by
  refine ⟨?_, ?_⟩ <;> with_unfolding_all rfl

/-- Claim C7 as amended: mixup augmentation is a deterministic function
of the table, the factor, and the `3 * floor(rows * factor)` global
generator draws it consumes at call time — not of the configuration's
`random_seed`, which the source never reads.  Two invocations agree
exactly when the generator supplies the same draws in both windows;
consecutive calls on the advancing global state generally do not (see
the counterexample). -/
theorem apply_mixup_deterministic_in_consumed_draws
    (df : Table) (f : Rat) (rng1 rng2 : Nat → Rat) (pos1 pos2 : Nat)
    (h : ∀ k, k < 3 * nSyn df f → rng1 (pos1 + k) = rng2 (pos2 + k)) :
    Except.map Prod.fst (DataAugmenter.apply_mixup df f rng1 pos1)
      = Except.map Prod.fst (DataAugmenter.apply_mixup df f rng2 pos2) := by
  unfold DataAugmenter.apply_mixup
  dsimp only
  by_cases hneg : DataAugmenter.nSamplesI (nRows df) f < 0
  · rw [if_pos hneg, if_pos hneg]
  · rw [if_neg hneg, if_neg hneg]
    by_cases hz : nRows df = 0
    · rw [if_pos hz, if_pos hz]
    · rw [if_neg hz, if_neg hz]
      have hn : (DataAugmenter.nSamplesI (nRows df) f).toNat = nSyn df f := rfl
      have e1 : (List.range (DataAugmenter.nSamplesI (nRows df) f).toNat).map
            (fun i => drawNat (rng1 (pos1 + i)) (nRows df))
          = (List.range (DataAugmenter.nSamplesI (nRows df) f).toNat).map
            (fun i => drawNat (rng2 (pos2 + i)) (nRows df)) := by
        apply range_map_congr
        intro i hi
        rw [hn] at hi
        rw [h i (by omega)]
      have e2 : (List.range (DataAugmenter.nSamplesI (nRows df) f).toNat).map
            (fun i => drawNat (rng1 (pos1 + (DataAugmenter.nSamplesI (nRows df) f).toNat + i)) (nRows df))
          = (List.range (DataAugmenter.nSamplesI (nRows df) f).toNat).map
            (fun i => drawNat (rng2 (pos2 + (DataAugmenter.nSamplesI (nRows df) f).toNat + i)) (nRows df)) := by
        apply range_map_congr
        intro i hi
        rw [hn] at hi
        have := h ((DataAugmenter.nSamplesI (nRows df) f).toNat + i) (by rw [hn]; omega)
        rw [← Nat.add_assoc, ← Nat.add_assoc] at this
        rw [this]
      have e3 : (List.range (DataAugmenter.nSamplesI (nRows df) f).toNat).map
            (fun i => fracPart (rng1 (pos1 + 2 * (DataAugmenter.nSamplesI (nRows df) f).toNat + i)))
          = (List.range (DataAugmenter.nSamplesI (nRows df) f).toNat).map
            (fun i => fracPart (rng2 (pos2 + 2 * (DataAugmenter.nSamplesI (nRows df) f).toNat + i))) := by
        apply range_map_congr
        intro i hi
        rw [hn] at hi
        have := h (2 * (DataAugmenter.nSamplesI (nRows df) f).toNat + i) (by rw [hn]; omega)
        rw [← Nat.add_assoc, ← Nat.add_assoc] at this
        rw [this]
      rw [e1, e2, e3]
      cases DataAugmenter.mixupCols
          ((List.range (DataAugmenter.nSamplesI (nRows df) f).toNat).map
            (fun i => drawNat (rng2 (pos2 + i)) (nRows df)))
          ((List.range (DataAugmenter.nSamplesI (nRows df) f).toNat).map
            (fun i => drawNat (rng2 (pos2 + (DataAugmenter.nSamplesI (nRows df) f).toNat + i)) (nRows df)))
          ((List.range (DataAugmenter.nSamplesI (nRows df) f).toNat).map
            (fun i => fracPart (rng2 (pos2 + 2 * (DataAugmenter.nSamplesI (nRows df) f).toNat + i))))
          df with
      | error e => rfl
      | ok t => rfl

/-! Augmentation row counts (claim C3). -/

theorem uniform_forall {df : Table} (hu : uniformTable df = true) :
    ∀ c ∈ df, c.2.length = nRows df := by
  simp only [uniformTable, List.all_eq_true, decide_eq_true_eq] at hu
  exact hu

theorem nSamplesI_nonneg (rows : Nat) {f : Rat} (hf : 0 ≤ f) :
    0 ≤ DataAugmenter.nSamplesI rows f := by
  unfold DataAugmenter.nSamplesI pyTrunc
  have hq : (0 : Rat) ≤ (rows : Rat) * f := mul_nonneg (by positivity) hf
  rw [if_pos hq]
  exact Rat.le_floor.mpr (by simpa using hq)

/-- Appending `K` synthesized cells below every column: the column
lengths each grow by `K`, and on a frame whose columns all have length
`k`, taking the first `k` rows recovers the original frame. -/
theorem map_append_shapes (df : Table) (g : String × Col → Col) (K : Nat)
    (hg : ∀ c ∈ df, (g c).length = K) :
    colLens (df.map (fun c => (c.1, c.2 ++ g c))) = (colLens df).map (· + K)
    ∧ ∀ k, (∀ c ∈ df, c.2.length = k) →
        takeRows k (df.map (fun c => (c.1, c.2 ++ g c))) = df := by
  constructor
  · simp only [colLens, List.map_map]
    apply List.map_congr_left
    intro c hc
    simp [hg c hc]
  · intro k hk
    unfold takeRows
    rw [List.map_map]
    conv_rhs => rw [← List.map_id df]
    apply List.map_congr_left
    intro c hc
    have h1 : c.2.length = k := hk c hc
    have : (c.2 ++ g c).take k = c.2 := by
      rw [← h1, List.take_left]
    simp [this]

theorem nRows_of_colLens_map_add {df t : Table} {K : Nat}
    (h : colLens t = (colLens df).map (· + K)) (hne : 1 ≤ nRows df) :
    nRows t = nRows df + K := by
  cases df with
  | nil => simp [nRows] at hne
  | cons c rest =>
      cases t with
      | nil => simp [colLens] at h
      | cons c2 rest2 =>
          simp only [colLens, List.map_cons, List.cons.injEq] at h
          show c2.2.length = c.2.length + K

          exact h.1

theorem interpColVals_length (b : Bool) (c : Col) : ∀ (i1 i2 : List Nat) (as_ : List Rat),
    (DataAugmenter.interpColVals b c i1 i2 as_).length
      = min i1.length (min i2.length as_.length) := by
  intro i1
  induction i1 with
  | nil => intro i2 as_; simp [DataAugmenter.interpColVals]
  | cons i is ih =>
      intro i2 as_
      cases i2 with
      | nil => simp [DataAugmenter.interpColVals]
      | cons j js =>
          cases as_ with
          | nil => simp [DataAugmenter.interpColVals]
          | cons a as2 =>
              simp only [DataAugmenter.interpColVals, List.length_cons, ih,
                         Nat.succ_min_succ]

/-- Shape of `_apply_random_interpolation`: for a non-empty frame and a
non-negative factor it succeeds, appending `floor(rows * f)` rows below
the originals. -/
theorem interp_shape (df : Table) (f : Rat) (rng : Nat → Rat) (pos : Nat)
    (hu : uniformTable df = true) (hr : 1 ≤ nRows df) (hf : 0 ≤ f) :
    ∃ t, DataAugmenter.apply_random_interpolation df f rng pos
        = .ok (t, pos + 3 * nSyn df f)
      ∧ nRows t = nRows df + nSyn df f ∧ takeRows (nRows df) t = df := by
  have hneg := nSamplesI_nonneg (nRows df) hf
  have hz : ¬ nRows df = 0 := by omega
  unfold DataAugmenter.apply_random_interpolation
  dsimp only
  rw [if_neg (by omega), if_neg hz]
  refine ⟨_, rfl, ?_, ?_⟩
  · have := map_append_shapes df
      (fun c => DataAugmenter.interpColVals (isIntFloatDtype c.2) c.2
        ((List.range (DataAugmenter.nSamplesI (nRows df) f).toNat).map
          (fun i => drawNat (rng (pos + i)) (nRows df)))
        ((List.range (DataAugmenter.nSamplesI (nRows df) f).toNat).map
          (fun i => drawNat (rng (pos + (DataAugmenter.nSamplesI (nRows df) f).toNat + i)) (nRows df)))
        ((List.range (DataAugmenter.nSamplesI (nRows df) f).toNat).map
          (fun i => fracPart (rng (pos + 2 * (DataAugmenter.nSamplesI (nRows df) f).toNat + i)))))
      (nSyn df f)
      (by intro c _; simp [interpColVals_length, nSyn])
    exact nRows_of_colLens_map_add this.1 hr
  · have := map_append_shapes df
      (fun c => DataAugmenter.interpColVals (isIntFloatDtype c.2) c.2
        ((List.range (DataAugmenter.nSamplesI (nRows df) f).toNat).map
          (fun i => drawNat (rng (pos + i)) (nRows df)))
        ((List.range (DataAugmenter.nSamplesI (nRows df) f).toNat).map
          (fun i => drawNat (rng (pos + (DataAugmenter.nSamplesI (nRows df) f).toNat + i)) (nRows df)))
        ((List.range (DataAugmenter.nSamplesI (nRows df) f).toNat).map
          (fun i => fracPart (rng (pos + 2 * (DataAugmenter.nSamplesI (nRows df) f).toNat + i)))))
      (nSyn df f)
      (by intro c _; simp [interpColVals_length, nSyn])
    exact this.2 (nRows df) (uniform_forall hu)

theorem mixVal_ok (w : Rat) {x y : Value} (hx : mixableValue x = true)
    (hy : mixableValue y = true) : ∃ v, DataAugmenter.mixVal w x y = .ok v := by
  cases x <;> cases y <;>
    first
      | exact ⟨_, rfl⟩
      | simp_all [mixableValue]

theorem getD_mixable : ∀ (c : Col), c.all mixableValue = true →
    ∀ i, mixableValue (c.getD i Value.vnull) = true := by
  intro c
  induction c with
  | nil => intro _ i; cases i <;> rfl
  | cons v vs ih =>
      intro h i
      rw [List.all_cons, Bool.and_eq_true] at h
      cases i with
      | zero => exact h.1
      | succ j => exact ih h.2 j

theorem mixColVals_ok {c : Col} (hc : c.all mixableValue = true) :
    ∀ (i1 : List Nat) (i2 : List Nat) (ws : List Rat),
      ∃ nv, DataAugmenter.mixColVals c i1 i2 ws = .ok nv
        ∧ nv.length = min i1.length (min i2.length ws.length) := by
  intro i1
  induction i1 with
  | nil => intro i2 ws; exact ⟨[], rfl, by simp⟩
  | cons i is ih =>
      intro i2 ws
      cases i2 with
      | nil => exact ⟨[], rfl, by simp⟩
      | cons j js =>
          cases ws with
          | nil => exact ⟨[], rfl, by simp⟩
          | cons w wrest =>
              obtain ⟨v, hv⟩ := mixVal_ok w (getD_mixable c hc i) (getD_mixable c hc j)
              obtain ⟨nv, hnv, hlen⟩ := ih js wrest
              refine ⟨v :: nv, ?_, ?_⟩
              · simp only [DataAugmenter.mixColVals]
                rw [hv, hnv]
                rfl
              · simp [hlen, Nat.succ_min_succ]

theorem mixupCols_ok (i1 i2 : List Nat) (ws : List Rat) : ∀ {df : Table},
    mixableTable df = true →
    ∃ t, DataAugmenter.mixupCols i1 i2 ws df = .ok t
      ∧ colLens t = (colLens df).map (· + min i1.length (min i2.length ws.length))
      ∧ ∀ k, (∀ c ∈ df, c.2.length = k) → takeRows k t = df := by
  intro df
  induction df with
  | nil => intro _; exact ⟨[], rfl, rfl, fun k _ => rfl⟩
  | cons c rest ih =>
      intro hm
      unfold mixableTable at hm
      rw [List.all_cons, Bool.and_eq_true] at hm
      obtain ⟨nv, hnv, hlen⟩ := mixColVals_ok hm.1 i1 i2 ws
      obtain ⟨t2, ht2, hcl2, hpre2⟩ := ih hm.2
      refine ⟨(c.1, c.2 ++ nv) :: t2, ?_, ?_, ?_⟩
      · simp only [DataAugmenter.mixupCols]
        rw [hnv, ht2]
      · simp only [colLens, List.map_cons, List.length_append, hlen]
        simp only [colLens] at hcl2
        rw [hcl2]
      · intro k hk
        have hhead : c.2.length = k := hk c (by simp)
        have htake : (c.2 ++ nv).take k = c.2 := by
          rw [← hhead, List.take_left]
        have htail := hpre2 k (fun x hx => hk x (by simp [hx]))
        unfold takeRows at htail ⊢
        simp only [List.map_cons, htake, htail]

/-- Shape of `_apply_mixup`: on a non-empty frame of mixable cells with
a non-negative factor it succeeds, appending `floor(rows * f)` rows. -/
theorem mixup_shape (df : Table) (f : Rat) (rng : Nat → Rat) (pos : Nat)
    (hu : uniformTable df = true) (hr : 1 ≤ nRows df) (hf : 0 ≤ f)
    (hm : mixableTable df = true) :
    ∃ t, DataAugmenter.apply_mixup df f rng pos = .ok (t, pos + 3 * nSyn df f)
      ∧ nRows t = nRows df + nSyn df f ∧ takeRows (nRows df) t = df := by
  have hneg := nSamplesI_nonneg (nRows df) hf
  unfold DataAugmenter.apply_mixup
  dsimp only
  rw [if_neg (by omega), if_neg (by omega)]
  obtain ⟨t, hok, hcl, hpre⟩ := mixupCols_ok
    ((List.range (DataAugmenter.nSamplesI (nRows df) f).toNat).map
      (fun i => drawNat (rng (pos + i)) (nRows df)))
    ((List.range (DataAugmenter.nSamplesI (nRows df) f).toNat).map
      (fun i => drawNat (rng (pos + (DataAugmenter.nSamplesI (nRows df) f).toNat + i)) (nRows df)))
    ((List.range (DataAugmenter.nSamplesI (nRows df) f).toNat).map
      (fun i => fracPart (rng (pos + 2 * (DataAugmenter.nSamplesI (nRows df) f).toNat + i))))
    hm
  rw [hok]
  refine ⟨t, rfl, ?_, hpre (nRows df) (uniform_forall hu)⟩
  have hK : min
      ((List.range (DataAugmenter.nSamplesI (nRows df) f).toNat).map
        (fun i => drawNat (rng (pos + i)) (nRows df))).length
      (min ((List.range (DataAugmenter.nSamplesI (nRows df) f).toNat).map
        (fun i => drawNat (rng (pos + (DataAugmenter.nSamplesI (nRows df) f).toNat + i)) (nRows df))).length
        ((List.range (DataAugmenter.nSamplesI (nRows df) f).toNat).map
          (fun i => fracPart (rng (pos + 2 * (DataAugmenter.nSamplesI (nRows df) f).toNat + i)))).length)
      = nSyn df f := by
    simp [nSyn]
  rw [hK] at hcl
  exact nRows_of_colLens_map_add hcl hr

/-- Shape of `_apply_gaussian_noise` when at least one row is
synthesized. -/
theorem gaussian_shape (df : Table) (f : Rat) (rng : Nat → Rat) (pos : Nat)
    (hu : uniformTable df = true) (hr : 1 ≤ nRows df)
    (hn : 1 ≤ nSyn df f) :
    ∃ t p, DataAugmenter.apply_gaussian_noise df f rng pos = .ok (t, p)
      ∧ nRows t = nRows df + nSyn df f ∧ takeRows (nRows df) t = df := by
  unfold DataAugmenter.apply_gaussian_noise
  dsimp only
  rw [if_neg (show ¬ (DataAugmenter.nSamplesI (nRows df) f).toNat = 0 by
        show ¬ nSyn df f = 0; omega),
      if_neg (by omega)]
  refine ⟨_, _, rfl, ?_, ?_⟩
  · refine nRows_of_colLens_map_add ?_ hr
    exact (map_append_shapes df _ (nSyn df f) (by intro c _; simp [nSyn])).1
  · exact (map_append_shapes df _ (nSyn df f)
      (by intro c _; simp [nSyn])).2 (nRows df) (uniform_forall hu)

/-- `_apply_gaussian_noise` with zero synthesized rows raises (the
`pd.concat` of an empty list of samples). -/
theorem gaussian_err (df : Table) (f : Rat) (rng : Nat → Rat) (pos : Nat)
    (hn : nSyn df f = 0) :
    isErr (DataAugmenter.apply_gaussian_noise df f rng pos) = true := by
  unfold DataAugmenter.apply_gaussian_noise
  dsimp only
  rw [if_pos (show (DataAugmenter.nSamplesI (nRows df) f).toNat = 0 from hn)]
  rfl

theorem flatten_const_length {α : Type} (n rows : Nat) (g : Nat → List α)
    (hg : ∀ s, s < n → (g s).length = rows) :
    (((List.range n).map g).flatten).length = n * rows := by
  rw [List.length_flatten, List.map_map]
  have he : (List.range n).map (List.length ∘ g) = List.replicate n rows := by
    apply List.eq_replicate_iff.mpr
    refine ⟨by simp, ?_⟩
    intro b hb
    obtain ⟨s, hs, rfl⟩ := List.mem_map.mp hb
    exact hg s (List.mem_range.mp hs)
  rw [he, List.sum_replicate, smul_eq_mul]

/-- Shape of `_apply_time_warping` on a well-formed input: each of the
`floor(rows * f)` samples is a full warped copy of the frame, so
`floor(rows * f) * rows` rows are appended. -/
theorem timewarp_shape (df : Table) (f : Rat) (rng : Nat → Rat) (pos : Nat)
    (interpO : Nat → String → Nat → Option Rat)
    (hu : uniformTable df = true)
    (hdt : df.any (fun c => isDatetimeDtype c.2) = true)
    (h4 : 4 ≤ nRows df) (hn : 1 ≤ nSyn df f) :
    ∃ t p, DataAugmenter.apply_time_warping df f rng pos interpO = .ok (t, p)
      ∧ nRows t = nRows df + nSyn df f * nRows df
      ∧ takeRows (nRows df) t = df := by
  unfold DataAugmenter.apply_time_warping
  rw [if_neg (by simp [hdt])]
  dsimp only
  rw [if_neg (show ¬ (DataAugmenter.nSamplesI (nRows df) f).toNat = 0 by
        show ¬ nSyn df f = 0; omega)]
  rw [if_neg (by rintro ⟨-, hlt⟩; omega)]
  have hg : ∀ c ∈ df,
      (((List.range (DataAugmenter.nSamplesI (nRows df) f).toNat).map
        (fun s => if isIntFloatDtype c.2 then
            (List.range (nRows df)).map (fun j =>
              match interpO s c.1 j with
              | some q => Value.vfloat q
              | none => Value.vnull)
          else c.2)).flatten).length = nSyn df f * nRows df := by
    intro c hc
    refine flatten_const_length _ _ _ ?_
    intro s _
    split
    · simp
    · exact uniform_forall hu c hc
  refine ⟨_, _, rfl, ?_, ?_⟩
  · refine nRows_of_colLens_map_add ?_ (by omega)
    exact (map_append_shapes df _ (nSyn df f * nRows df) hg).1
  · exact (map_append_shapes df _ (nSyn df f * nRows df) hg).2
      (nRows df) (uniform_forall hu)

theorem augment_dispatch_mixup (df : Table) (f : Rat) (rng : Nat → Rat) (pos : Nat)
    (io : Nat → String → Nat → Option Rat) :
    DataAugmenter.augment_dataset df "mixup" f rng pos io
      = match DataAugmenter.apply_mixup df f rng pos with
        | .error e => .error e
        | .ok (t, pos2) =>
            match DataAugmenter.calculate_augmentation_stats "mixup" df t with
            | .error e => .error e
            | .ok stats => .ok (t, stats, pos2) := by with_unfolding_all rfl

theorem augment_dispatch_interp (df : Table) (f : Rat) (rng : Nat → Rat) (pos : Nat)
    (io : Nat → String → Nat → Option Rat) :
    DataAugmenter.augment_dataset df "random_interpolation" f rng pos io
      = match DataAugmenter.apply_random_interpolation df f rng pos with
        | .error e => .error e
        | .ok (t, pos2) =>
            match DataAugmenter.calculate_augmentation_stats "random_interpolation" df t with
            | .error e => .error e
            | .ok stats => .ok (t, stats, pos2) := by with_unfolding_all rfl

theorem augment_dispatch_gaussian (df : Table) (f : Rat) (rng : Nat → Rat) (pos : Nat)
    (io : Nat → String → Nat → Option Rat) :
    DataAugmenter.augment_dataset df "gaussian_noise" f rng pos io
      = match DataAugmenter.apply_gaussian_noise df f rng pos with
        | .error e => .error e
        | .ok (t, pos2) =>
            match DataAugmenter.calculate_augmentation_stats "gaussian_noise" df t with
            | .error e => .error e
            | .ok stats => .ok (t, stats, pos2) := by with_unfolding_all rfl

theorem augment_dispatch_timewarp (df : Table) (f : Rat) (rng : Nat → Rat) (pos : Nat)
    (io : Nat → String → Nat → Option Rat) :
    DataAugmenter.augment_dataset df "time_warp" f rng pos io
      = match DataAugmenter.apply_time_warping df f rng pos io with
        | .error e => .error e
        | .ok (t, pos2) =>
            match DataAugmenter.calculate_augmentation_stats "time_warp" df t with
            | .error e => .error e
            | .ok stats => .ok (t, stats, pos2) := by with_unfolding_all rfl

theorem statsFeatureCheck_ok : ∀ {df : Table},
    df.all (fun c =>
      if isIntFloatDtype c.2 then
        match DataAugmenter.colMinQ c.2, DataAugmenter.colMaxQ c.2 with
        | some lo, some hi => !(hi - lo == 0)
        | _, _ => true
      else true) = true →
    DataAugmenter.statsFeatureCheck df = .ok () := by
  intro df
  induction df with
  | nil => intro _; rfl
  | cons c rest ih =>
      intro h
      rw [List.all_cons, Bool.and_eq_true] at h
      obtain ⟨h1, h2⟩ := h
      unfold DataAugmenter.statsFeatureCheck
      split
      case isTrue hd =>
        rw [if_pos hd] at h1
        cases hmin : DataAugmenter.colMinQ c.2 with
        | none =>
            dsimp only
            exact ih h2
        | some lo =>
            cases hmax : DataAugmenter.colMaxQ c.2 with
            | none =>
                dsimp only
                exact ih h2
            | some hi =>
                dsimp only
                rw [hmin, hmax] at h1
                dsimp only at h1
                rw [if_neg (by simpa using h1)]
                exact ih h2
      case isFalse hd => exact ih h2

theorem calculate_stats_ok (m : String) {df : Table} (aug : Table)
    (hs : statsSafe df = true) :
    ∃ s, DataAugmenter.calculate_augmentation_stats m df aug = .ok s := by
  unfold statsSafe at hs
  rw [Bool.and_eq_true] at hs
  obtain ⟨h1, h2⟩ := hs
  rw [decide_eq_true_eq] at h1
  unfold DataAugmenter.calculate_augmentation_stats
  rw [if_neg (by omega), statsFeatureCheck_ok h2]
  exact ⟨_, rfl⟩

/-- Claim C3 as amended: the claimed row count
`T.rows + floor(T.rows * f)` holds for `mixup` (on frames whose cells
support numpy row arithmetic), for `random_interpolation`, and for
`gaussian_noise` when `floor(rows * f) ≥ 1` — each time with the
original rows as an unchanged prefix and the synthesized rows appended;
but `gaussian_noise` raises when `floor(rows * f) = 0` (it concatenates
an empty list of samples), and `time_warp` appends `floor(rows * f)`
*full warped copies* of the frame — `T.rows + floor(T.rows * f) * T.rows`
rows, not `T.rows + floor(T.rows * f)`.  All on a non-empty uniform
frame, `f ≥ 0`, and inputs on which the statistics step does not
divide by zero. -/
theorem augment_rowcounts_amended (df : Table) (f : Rat) (rng : Nat → Rat)
    (pos : Nat) (interpO : Nat → String → Nat → Option Rat)
    (hu : uniformTable df = true) (hr : 1 ≤ nRows df) (hf : 0 ≤ f)
    (hs : statsSafe df = true) :
    (mixableTable df = true →
      ∃ t s p, DataAugmenter.augment_dataset df "mixup" f rng pos interpO = .ok (t, s, p)
        ∧ nRows t = nRows df + nSyn df f ∧ takeRows (nRows df) t = df)
  ∧ (∃ t s p,
        DataAugmenter.augment_dataset df "random_interpolation" f rng pos interpO = .ok (t, s, p)
        ∧ nRows t = nRows df + nSyn df f ∧ takeRows (nRows df) t = df)
  ∧ (1 ≤ nSyn df f →
      ∃ t s p, DataAugmenter.augment_dataset df "gaussian_noise" f rng pos interpO = .ok (t, s, p)
        ∧ nRows t = nRows df + nSyn df f ∧ takeRows (nRows df) t = df)
  ∧ (nSyn df f = 0 →
      isErr (DataAugmenter.augment_dataset df "gaussian_noise" f rng pos interpO) = true)
  ∧ (df.any (fun c => isDatetimeDtype c.2) = true → 4 ≤ nRows df → 1 ≤ nSyn df f →
      ∃ t s p, DataAugmenter.augment_dataset df "time_warp" f rng pos interpO = .ok (t, s, p)
        ∧ nRows t = nRows df + nSyn df f * nRows df ∧ takeRows (nRows df) t = df) := by
  refine ⟨?_, ?_, ?_, ?_, ?_⟩
  · intro hm
    obtain ⟨t, hmx, hrows, hpre⟩ := mixup_shape df f rng pos hu hr hf hm
    obtain ⟨s, hsok⟩ := calculate_stats_ok "mixup" t hs
    refine ⟨t, s, pos + 3 * nSyn df f, ?_, hrows, hpre⟩
    rw [augment_dispatch_mixup, hmx]
    dsimp only
    rw [hsok]
  · obtain ⟨t, hix, hrows, hpre⟩ := interp_shape df f rng pos hu hr hf
    obtain ⟨s, hsok⟩ := calculate_stats_ok "random_interpolation" t hs
    refine ⟨t, s, pos + 3 * nSyn df f, ?_, hrows, hpre⟩
    rw [augment_dispatch_interp, hix]
    dsimp only
    rw [hsok]
  · intro hn1
    obtain ⟨t, p, hga, hrows, hpre⟩ := gaussian_shape df f rng pos hu hr hn1
    obtain ⟨s, hsok⟩ := calculate_stats_ok "gaussian_noise" t hs
    refine ⟨t, s, p, ?_, hrows, hpre⟩
    rw [augment_dispatch_gaussian, hga]
    dsimp only
    rw [hsok]
  · intro hn0
    have hb := gaussian_err df f rng pos hn0
    rw [augment_dispatch_gaussian]
    cases hga : DataAugmenter.apply_gaussian_noise df f rng pos with
    | error e => rfl
    | ok x => rw [hga] at hb; simp [isErr] at hb
  · intro hdt h4 hn1
    obtain ⟨t, p, htw, hrows, hpre⟩ := timewarp_shape df f rng pos interpO hu hdt h4 hn1
    obtain ⟨s, hsok⟩ := calculate_stats_ok "time_warp" t hs
    refine ⟨t, s, p, ?_, hrows, hpre⟩
    rw [augment_dispatch_timewarp, htw]
    dsimp only
    rw [hsok]

/-- Claim C3, counterexample: on a 4-row frame with a datetime and a
float column and factor 1/2 the claim predicts `4 + floor(4 * 1/2) = 6`
rows from `time_warp`; the code returns 12 (two full warped copies of
the frame are appended).  And on a 2-row frame with factor 1/10 the
claim predicts a successful 2-row result from `gaussian_noise`; the
code raises (`pd.concat` of an empty sample list). -/
theorem augment_rowcount_counterexample :
    augRowCount (DataAugmenter.augment_dataset exDfTW "time_warp"
        ((1 : Rat) / 2) exStreamZero 0 exInterpNone) = some 12
  ∧ (augRowCount (DataAugmenter.augment_dataset exDfTW "time_warp"
        ((1 : Rat) / 2) exStreamZero 0 exInterpNone) == some (4 + 2)) = false
  ∧ isErr (DataAugmenter.augment_dataset exDfPair "gaussian_noise"
        ((1 : Rat) / 10) exStreamZero 0 exInterpNone) = true := by
  refine ⟨?_, ?_, ?_⟩ <;> with_unfolding_all rfl

/-- Witness: the amended C3 theorem applied to the concrete 4-row frame
`exDfTW` with factor 1/2, instantiating the random-interpolation and
time-warp conjuncts. -/
theorem augment_rowcounts_witness :
    (∃ t s p, DataAugmenter.augment_dataset exDfTW "random_interpolation"
        ((1 : Rat) / 2) exStreamZero 0 exInterpNone = .ok (t, s, p)
      ∧ nRows t = nRows exDfTW + nSyn exDfTW ((1 : Rat) / 2)
      ∧ takeRows (nRows exDfTW) t = exDfTW)
  ∧ (∃ t s p, DataAugmenter.augment_dataset exDfTW "time_warp"
        ((1 : Rat) / 2) exStreamZero 0 exInterpNone = .ok (t, s, p)
      ∧ nRows t = nRows exDfTW + nSyn exDfTW ((1 : Rat) / 2) * nRows exDfTW
      ∧ takeRows (nRows exDfTW) t = exDfTW) := by
  have hn2 : nSyn exDfTW ((1 : Rat) / 2) = 2 := by with_unfolding_all rfl
  have h := augment_rowcounts_amended exDfTW ((1 : Rat) / 2) exStreamZero 0 exInterpNone
    (by decide) (by decide) (by norm_num) (by with_unfolding_all rfl)
  exact ⟨h.2.1, h.2.2.2.2 (by decide) (by decide) (by omega)⟩

/-! Normalizer idempotence and portability (claim C9). -/

theorem normScalar_idem (s : NScalar) : normScalar (normScalar s) = normScalar s := by
  cases s <;> rfl

theorem normalizeList_eq_map (xs : List NVal) : normalizeList xs = xs.map normalize := by
  induction xs with
  | nil => rfl
  | cons x xs ih => simp [normalizeList, ih]

theorem normalizeKMap_eq_map (xs : List (String × NVal)) :
    normalizeKMap xs = xs.map (fun kv => (kv.1, normalize kv.2)) := by
  induction xs with
  | nil => rfl
  | cons kv xs ih => simp [normalizeKMap, ih]

theorem normalize_idem_aux : ∀ (n : Nat) (x : NVal), sizeOf x ≤ n →
    normalize (normalize x) = normalize x := by
  intro n
  induction n with
  | zero =>
      intro x hx
      cases x <;> simp at hx
  | succ n ih =>
      intro x hx
      cases x with
      | scalar s => simp [normalize, normScalar_idem]
      | seq xs =>
          have hxs : sizeOf xs ≤ n := by
            simp at hx
            omega
          simp only [normalize, normalizeList_eq_map, List.map_map]
          congr 1
          apply List.map_congr_left
          intro y hy
          have hylt : sizeOf y < sizeOf xs := List.sizeOf_lt_of_mem hy
          simp only [Function.comp]
          exact ih y (by omega)
      | kmap xs =>
          have hxs : sizeOf xs ≤ n := by
            simp at hx
            omega
          simp only [normalize, normalizeKMap_eq_map, List.map_map]
          congr 1
          apply List.map_congr_left
          intro kv hkv
          have hlt : sizeOf kv < sizeOf xs := List.sizeOf_lt_of_mem hkv
          have hvlt : sizeOf kv.2 < sizeOf kv := by
            cases kv with
            | mk k v =>
                dsimp only
                simp only [Prod.mk.sizeOf_spec]
                omega
          simp only [Function.comp]
          refine congrArg (fun z => (kv.1, z)) ?_
          exact ih kv.2 (by omega)

theorem normalize_idem (x : NVal) : normalize (normalize x) = normalize x :=
  normalize_idem_aux (sizeOf x) x le_rfl

theorem normScalar_portable {s : NScalar} (h : scalarWF s = true) :
    scalarPortable (normScalar s) = true := by
  cases s <;> simp_all [scalarWF, scalarPortable, normScalar]

theorem nvalWFList_eq_all (l : List NVal) : nvalWFList l = l.all nvalWF := by
  induction l with
  | nil => rfl
  | cons x xs ih => simp [nvalWFList, ih]

theorem nvalWFKMap_eq_all (l : List (String × NVal)) :
    nvalWFKMap l = l.all (fun kv => nvalWF kv.2) := by
  induction l with
  | nil => rfl
  | cons kv xs ih => simp [nvalWFKMap, ih]

theorem nvalPortableList_eq_all (l : List NVal) : nvalPortableList l = l.all nvalPortable := by
  induction l with
  | nil => rfl
  | cons x xs ih => simp [nvalPortableList, ih]

theorem nvalPortableKMap_eq_all (l : List (String × NVal)) :
    nvalPortableKMap l = l.all (fun kv => nvalPortable kv.2) := by
  induction l with
  | nil => rfl
  | cons kv xs ih => simp [nvalPortableKMap, ih]

theorem normalize_portable_aux : ∀ (n : Nat) (x : NVal), sizeOf x ≤ n →
    nvalWF x = true → nvalPortable (normalize x) = true := by
  intro n
  induction n with
  | zero =>
      intro x hx
      cases x <;> simp at hx
  | succ n ih =>
      intro x hx hwf
      cases x with
      | scalar s => exact normScalar_portable hwf
      | seq xs =>
          have hxs : sizeOf xs ≤ n := by
            simp at hx
            omega
          show nvalPortableList (normalizeList xs) = true
          rw [nvalPortableList_eq_all, normalizeList_eq_map, List.all_map,
              List.all_eq_true]
          intro y hy
          have hylt : sizeOf y < sizeOf xs := List.sizeOf_lt_of_mem hy
          have hwfy : nvalWF y = true := by
            have := hwf
            rw [show nvalWF (NVal.seq xs) = nvalWFList xs from rfl,
                nvalWFList_eq_all, List.all_eq_true] at this
            exact this y hy
          exact ih y (by omega) hwfy
      | kmap xs =>
          have hxs : sizeOf xs ≤ n := by
            simp at hx
            omega
          show nvalPortableKMap (normalizeKMap xs) = true
          rw [nvalPortableKMap_eq_all, normalizeKMap_eq_map, List.all_map,
              List.all_eq_true]
          intro kv hkv
          have hlt : sizeOf kv < sizeOf xs := List.sizeOf_lt_of_mem hkv
          have hvlt : sizeOf kv.2 < sizeOf kv := by
            cases kv with
            | mk k v =>
                dsimp only
                simp only [Prod.mk.sizeOf_spec]
                omega
          have hwfv : nvalWF kv.2 = true := by
            have := hwf
            rw [show nvalWF (NVal.kmap xs) = nvalWFKMap xs from rfl,
                nvalWFKMap_eq_all, List.all_eq_true] at this
            exact this kv hkv
          exact ih kv.2 (by omega) hwfv

/-- Claim C9 (the normalizer is modelled from the spec, §4.1, since the
component is not among the source files under review): on every nested
structure built from supported scalars (integer values within the
signed 64-bit range), normalization is idempotent and its result
contains only portable scalars — 64-bit-range integers, 64-bit floats,
booleans, strings and nulls. -/
theorem normalizer_idempotent_and_portable (x : NVal) (h : nvalWF x = true) :
    normalize (normalize x) = normalize x ∧ nvalPortable (normalize x) = true :=
  ⟨normalize_idem x, normalize_portable_aux (sizeOf x) x le_rfl h⟩

/-- Witness: the normalizer theorem applied to a concrete nested
structure. -/
theorem normalizer_witness :
    nvalWF exNVal = true
  ∧ normalize (normalize exNVal) = normalize exNVal
  ∧ nvalPortable (normalize exNVal) = true :=
  ⟨rfl, (normalizer_idempotent_and_portable exNVal rfl).1,
    (normalizer_idempotent_and_portable exNVal rfl).2⟩

/-- Witness: the amended C7 theorem applied to a concrete frame and
two concrete streams that agree on the three consumed draws. -/
theorem apply_mixup_deterministic_witness :
    Except.map Prod.fst (DataAugmenter.apply_mixup exDf7 ((1 : Rat) / 2) exStream7 0)
      = Except.map Prod.fst (DataAugmenter.apply_mixup exDf7 ((1 : Rat) / 2) exStream7b 0) := by
  apply apply_mixup_deterministic_in_consumed_draws
  intro k hk
  have hn : 3 * nSyn exDf7 ((1 : Rat) / 2) = 3 := by with_unfolding_all rfl
  rw [hn] at hk
  simp only [Nat.zero_add, exStream7b, if_pos hk]

end FineTune
